import Mathlib

/-!
Terminus dashboard: bracket resolution and live status engine.

A shallow embedding of `src/src/TerminalDashboard.jsx`: the data pipeline (the
body of `fetchData` and the derived lists `playing` / `called`), the state the
component keeps across fetches with its event loop (cadence, countdown, manual
refresh, settling requests), the elapsed timer `MatchTimer`, and the action
`addStation` of `src/src/MapEditor.jsx`; followed by theorems about them.

Modelling conventions.

* A JSON scalar received from the provider is a `JSVal`.  Numbers are the
  integers the provider sends (identifiers, states, placements, station
  numbers), so `String(n)` is the decimal rendering of `n`.
* A field that holds an object or `null`/`undefined` is an `Option`.
* A JavaScript `TypeError` (property access on `null`/`undefined`) is the
  error branch of `Except JSError`.
* The `Map` used as set index is an association list in insertion order.
* A number that may be `NaN` (`parseInt`, `Math.max`) is an `Option Int`, with
  `none` for `NaN`; integers are exact, which they are in the language up to
  9007199254740992 in absolute value.
* A time value is an `Int` of epoch milliseconds.  A `Date` built from a value
  beyond 8640000000000000 in absolute value is invalid, arithmetic on it gives
  `NaN`, and the timer prints "NaN"; the difference of two valid time values
  is rounded as the language rounds it (`roundDouble`).
* `fetchData` is split at its awaits: `fetchDataStart` runs when it is called,
  `fetchDataComplete` when the request has settled.  A block of statements is
  an `Effect`: the state after its `setState` calls, and whether it raised.
-/

namespace Terminus

/-! ## JavaScript scalars -/

/-- A JavaScript primitive value as it occurs in the provider's JSON. -/
inductive JSVal where
  | undefined : JSVal
  | null : JSVal
  | bool (b : Bool) : JSVal
  | num (n : Int) : JSVal
  | str (s : String) : JSVal
  deriving DecidableEq, Repr

/-- The only exception the pipeline can raise on JSON input. -/
inductive JSError where
  | typeError : JSError
  deriving DecidableEq, Repr

/-- Equality of pipeline results is decidable. -/
instance instDecidableEqExcept {ε α : Type} [DecidableEq ε] [DecidableEq α] :
    DecidableEq (Except ε α)
  | .ok a, .ok b => if h : a = b then isTrue (by rw [h]) else isFalse (fun h2 => h (by cases h2; rfl))
  | .error a, .error b => if h : a = b then isTrue (by rw [h]) else isFalse (fun h2 => h (by cases h2; rfl))
  | .ok _, .error _ => isFalse (fun h => by cases h)
  | .error _, .ok _ => isFalse (fun h => by cases h)

/-- JavaScript truthiness (`if (v)`, `v && w`, `v || w`). -/
def JSVal.truthy : JSVal → Bool
  | .undefined => false
  | .null => false
  | .bool b => b
  | .num n => decide (n ≠ 0)
  | .str s => decide (s ≠ "")

/-- The conversion `String(v)`, also used by template literals and, on the
values that have the method, by `v.toString()`. -/
def JSVal.toStr : JSVal → String
  | .undefined => "undefined"
  | .null => "null"
  | .bool true => "true"
  | .bool false => "false"
  | .num n => toString n
  | .str s => s

/-- The segments of `cs` between occurrences of `sep`: `split` with a
one-character separator, on the characters of the string. -/
def splitChars (sep : Char) : List Char → List (List Char)
  | [] => [[]]
  | c :: cs =>
    if c = sep then [] :: splitChars sep cs
    else
      match splitChars sep cs with
      | [] => [[c]]
      | seg :: rest => (c :: seg) :: rest

/-- The method call `s.split(sep)` for a one-character separator. -/
def jsSplit (s : String) (sep : Char) : List String :=
  (splitChars sep s.data).map String.mk

/-! ## Provider data -/

/-- The object `entrant { name }`. -/
structure Entrant where
  name : JSVal
  deriving DecidableEq, Repr

/-- One side of a set: `slots { prereqId prereqPlacement entrant { name } }`. -/
structure Slot where
  entrant : Option Entrant
  prereqId : JSVal
  prereqPlacement : JSVal
  deriving DecidableEq, Repr

/-- The object `station { id number }`. -/
structure Station where
  id : JSVal
  number : JSVal
  deriving DecidableEq, Repr

/-- The object `stream { streamName }`. -/
structure Stream where
  streamName : JSVal
  deriving DecidableEq, Repr

/-- The object `phaseGroup { displayIdentifier }`. -/
structure PhaseGroup where
  displayIdentifier : JSVal
  deriving DecidableEq, Repr

/-- A node of `activeSets` or `completedSets`.  Fields a query does not ask for
are `undefined` / `none`. -/
structure SetNode where
  id : JSVal
  fullRoundText : JSVal
  state : JSVal
  startedAt : JSVal
  station : Option Station
  stream : Option Stream
  phaseGroup : Option PhaseGroup
  slots : Option (List (Option Slot))
  deriving DecidableEq, Repr

/-! ## The set index (`setMap`) -/

/-- A JavaScript `Map` with string keys, as its entries in insertion order. -/
abbrev SetMap := List (String × SetNode)

/-- The call `setMap.set(k, v)`: overwrite the entry of `k` in place, or append. -/
def SetMap.set (m : SetMap) (k : String) (v : SetNode) : SetMap :=
  if m.any (fun e => e.1 == k) then m.map (fun e => if e.1 = k then (k, v) else e)
  else m ++ [(k, v)]

/-- The call `setMap.get(k)`, with `none` for `undefined`. -/
def SetMap.get (m : SetMap) (k : String) : Option SetNode :=
  (m.find? (fun e => e.1 == k)).map Prod.snd

/-- The call `setMap.has(k)`. -/
def SetMap.has (m : SetMap) (k : String) : Bool :=
  m.any (fun e => e.1 == k)

/-- The loop `nodes.forEach(set => setMap.set(String(set.id), set))`. -/
def insertAll (m : SetMap) (nodes : List SetNode) : SetMap :=
  nodes.foldl (fun acc s => acc.set s.id.toStr s) m

/-- The index of one cycle: completed sets first, then active sets. -/
def buildSetMap (completedNodes activeNodes : List SetNode) : SetMap :=
  insertAll (insertAll [] completedNodes) activeNodes

/-! ## Slot resolution -/

/-- The object returned by `resolveSlotInfo`. -/
structure ResolvedSlotInfo where
  text : JSVal
  isKnown : Bool
  isDeepKnown : Bool
  deriving DecidableEq, Repr

/-- The expression `slots[i]?.entrant?.name`. -/
def slotEntrantName (slots : List (Option Slot)) (i : Nat) : JSVal :=
  match slots.get? i with
  | some (some sl) =>
    match sl.entrant with
    | some e => e.name
    | none => .undefined
  | _ => .undefined

/-- The expression `slot.prereqId.toString().split('_').pop() || slot.prereqId`,
as the string a template literal prints for it. -/
def shortId (prereqId : JSVal) : String :=
  match (jsSplit prereqId.toStr '_').getLast? with
  | some seg => if seg ≠ "" then seg else prereqId.toStr
  | none => prereqId.toStr

/-- The helper `resolveSlotInfo(slot)` over the index `setMap`. -/
def resolveSlotInfo (setMap : SetMap) (slot : Slot) : Except JSError ResolvedSlotInfo :=
  match slot.entrant with
  | some e => .ok { text := e.name, isKnown := true, isDeepKnown := true }
  | none =>
    if slot.prereqId.truthy then
      let pId := slot.prereqId.toStr
      let fallback : ResolvedSlotInfo :=
        { text := .str ((if slot.prereqPlacement = .num 1 then "W" else "L")
                    ++ ". of Set " ++ shortId slot.prereqId),
          isKnown := false, isDeepKnown := false }
      if setMap.has pId then
        match setMap.get pId with
        | none => .error .typeError
        | some pSet =>
          match pSet.slots with
          | none => .error .typeError
          | some ss =>
            let s1Name := slotEntrantName ss 0
            let s2Name := slotEntrantName ss 1
            if s1Name.truthy && s2Name.truthy then
              .ok { text := .str ((if slot.prereqPlacement = .num 1 then "Winner" else "Loser")
                              ++ " of " ++ s1Name.toStr ++ " vs " ++ s2Name.toStr),
                    isKnown := false, isDeepKnown := true }
            else .ok fallback
      else .ok fallback
    else .ok { text := .str "TBD", isKnown := false, isDeepKnown := false }

/-! ## Display matches and the live lists -/

/-- An element of `cleanData`. -/
structure DisplayMatch where
  id : JSVal
  p1 : JSVal
  p2 : JSVal
  s1Info : ResolvedSlotInfo
  s2Info : ResolvedSlotInfo
  round : String
  station : JSVal
  isStream : Bool
  startedAt : JSVal
  status : JSVal
  deriving DecidableEq, Repr

/-- The argument `n.slots[i]` handed to `resolveSlotInfo`: reading an index of a
missing array, or a property of a missing slot, raises. -/
def resolveNodeSlot (setMap : SetMap) (n : SetNode) (i : Nat) :
    Except JSError ResolvedSlotInfo :=
  match n.slots with
  | none => .error .typeError
  | some ss =>
    match ss.get? i with
    | some (some sl) => resolveSlotInfo setMap sl
    | _ => .error .typeError

/-- The expression `n.phaseGroup?.displayIdentifier || "Bracket"`. -/
def poolId (n : SetNode) : JSVal :=
  match n.phaseGroup with
  | some pg => if pg.displayIdentifier.truthy then pg.displayIdentifier else .str "Bracket"
  | none => .str "Bracket"

/-- The callback of `activeNodes.map` that builds one display match. -/
def displayMatch (setMap : SetMap) (n : SetNode) : Except JSError DisplayMatch := do
  let s1 ← resolveNodeSlot setMap n 0
  let s2 ← resolveNodeSlot setMap n 1
  pure {
    id := n.id
    p1 := s1.text
    p2 := s2.text
    s1Info := s1
    s2Info := s2
    round := (poolId n).toStr ++ ": " ++ n.fullRoundText.toStr
    station := match n.station with
      | some st => .str st.number.toStr
      | none => .null
    isStream := n.stream.isSome
    startedAt := n.startedAt
    status := n.state }

/-- The list `cleanData = activeNodes.map(...)`; the first raising element
aborts the whole map. -/
def cleanData (setMap : SetMap) : List SetNode → Except JSError (List DisplayMatch)
  | [] => .ok []
  | n :: ns => do
    let d ← displayMatch setMap n
    let ds ← cleanData setMap ns
    pure (d :: ds)

/-- The predicate of `cleanData.filter` that selects the upcoming matches. -/
def isUpcoming (m : DisplayMatch) : Bool :=
  if m.status ≠ .num 1 ∧ m.status ≠ .num 5 then false
  else if m.s1Info.isDeepKnown && m.s2Info.isDeepKnown then true
  else false

/-- The list `upcomingFiltered`. -/
def upcomingFiltered (cd : List DisplayMatch) : List DisplayMatch :=
  cd.filter isUpcoming

/-- The list `playing = matches.filter(m => m.status === 2)`. -/
def playing (ms : List DisplayMatch) : List DisplayMatch :=
  ms.filter (fun m => decide (m.status = .num 2))

/-- The list `called = matches.filter(m => m.status === 6)`. -/
def called (ms : List DisplayMatch) : List DisplayMatch :=
  ms.filter (fun m => decide (m.status = .num 6))

/-- The prop `playingStations={playing.map(m => m.station)}`. -/
def playingStations (ms : List DisplayMatch) : List JSVal :=
  (playing ms).map (fun m => m.station)

/-- The prop `calledStations={called.map(m => m.station)}`. -/
def calledStations (ms : List DisplayMatch) : List JSVal :=
  (called ms).map (fun m => m.station)

/-- The call `xs.includes(v)` on a list of scalars. -/
def includes (xs : List JSVal) (v : JSVal) : Bool :=
  xs.any (fun x => decide (x = v))

/-! ## The dashboard state and `fetchData` -/

/-- An element of `tournament.images`. -/
structure Image where
  url : JSVal
  type : JSVal
  deriving DecidableEq, Repr

/-- The object `tournament { name images { url type } }`. -/
structure Tournament where
  name : JSVal
  images : Option (List Image)
  deriving DecidableEq, Repr

/-- A connection `sets(...) { nodes { ... } }`. -/
structure SetConnection where
  nodes : Option (List SetNode)
  deriving DecidableEq, Repr

/-- The object `json.data.event`. -/
structure EventData where
  name : JSVal
  tournament : Option Tournament
  activeSets : Option SetConnection
  completedSets : Option SetConnection
  deriving DecidableEq, Repr

/-- The object `json.data`. -/
structure ResponseData where
  event : Option EventData
  deriving DecidableEq, Repr

/-- The parsed response body `json`: the GraphQL `data` and the reported
`errors` list. -/
structure ResponseJson where
  data : Option ResponseData
  errors : Option (List JSVal)
  deriving DecidableEq, Repr

/-- What the two awaits of `fetchData` deliver: a rejection (`fetch` or
`response.json()` raises) or a parsed body. -/
inductive FetchOutcome where
  | rejected : FetchOutcome
  | json (r : ResponseJson) : FetchOutcome
  deriving DecidableEq, Repr

/-- The state variable `meta`. -/
structure MetaInfo where
  tourneyName : JSVal
  eventName : JSVal
  logo : JSVal
  deriving DecidableEq, Repr

/-- The state variables of `TerminalDashboard` the data pipeline touches
(`matches_` is the variable `matches`). -/
structure Dashboard where
  matches_ : List DisplayMatch
  upcomingMatches : List DisplayMatch
  meta : MetaInfo
  timer : Int
  flapTrigger : Int
  loading : Bool
  deriving DecidableEq, Repr

/-- A block of statements: the state after the `setState` calls it made, and
whether it completed or raised. -/
abbrev Effect := Dashboard → Dashboard × Except JSError Unit

/-- The statement `try { body } catch (err) { handler }`. -/
def tryCatch (body : Effect) (handler : JSError → Effect) : Effect := fun s =>
  match body s with
  | (s1, .error e) => handler e s1
  | (s1, .ok u) => (s1, .ok u)

/-- The statement `try { body } finally { fin }` for a `fin` that cannot raise. -/
def tryFinally (body : Effect) (fin : Dashboard → Dashboard) : Effect := fun s =>
  match body s with
  | (s1, r) => (fin s1, r)

/-- The expression `tourney.images.find(img => img.type === "profile") || tourney.images[0]`. -/
def logoObj (images : List Image) : Option Image :=
  match images.find? (fun img => decide (img.type = .str "profile")) with
  | some img => some img
  | none => images.head?

/-- The body of `if (json.data && json.data.event) { ... }` in `fetchData`. -/
def processEvent (eventData : EventData) : Effect := fun s =>
  match eventData.tournament with
  | none => (s, .error .typeError)
  | some tourney =>
    match tourney.images with
    | none => (s, .error .typeError)
    | some images =>
      let s1 : Dashboard :=
        { s with meta :=
            { tourneyName := tourney.name
              eventName := eventData.name
              logo := match logoObj images with
                | some img => img.url
                | none => .null } }
      match eventData.activeSets with
      | none => (s1, .error .typeError)
      | some act =>
        match eventData.completedSets with
        | none => (s1, .error .typeError)
        | some comp =>
          let activeNodes := act.nodes.getD []
          let completedNodes := comp.nodes.getD []
          let setMap := buildSetMap completedNodes activeNodes
          match cleanData setMap activeNodes with
          | .error e => (s1, .error e)
          | .ok cd =>
            ({ s1 with matches_ := cd, upcomingMatches := upcomingFiltered cd, timer := 30 },
              .ok ())

/-- The `try` block of `fetchData`, from the first await on. -/
def tryBlock (o : FetchOutcome) : Effect := fun s =>
  match o with
  | .rejected => (s, .error .typeError)
  | .json r =>
    match r.data with
    | none => (s, .ok ())
    | some d =>
      match d.event with
      | none => (s, .ok ())
      | some eventData => processEvent eventData s

/-- The part of `fetchData` that runs before the first await:
`setLoading(true)` and the request is issued. -/
def fetchDataStart (s : Dashboard) : Dashboard :=
  { s with loading := true }

/-- The part of `fetchData` that runs once the request has settled:
`try { ... } catch (err) { console.error(...) } finally { setLoading(false) }`. -/
def fetchDataComplete (o : FetchOutcome) : Effect :=
  tryFinally (tryCatch (tryBlock o) (fun _ s => (s, .ok ()))) (fun s => { s with loading := false })

/-! ## The event loop of the dashboard -/

/-- The dashboard together with the number of `fetchData` calls that wait for
their response. -/
structure AppState where
  dash : Dashboard
  inFlight : Nat
  deriving DecidableEq, Repr

/-- The initial values of the `useState` calls. -/
def initialDashboard : Dashboard :=
  { matches_ := [], upcomingMatches := [],
    meta := { tourneyName := .str "LOADING...", eventName := .str "SYSTEM_INIT", logo := .null },
    timer := 30, flapTrigger := 0, loading := false }

/-- The state after mounting: the effect has called `fetchData()` once. -/
def mounted : AppState :=
  { dash := fetchDataStart initialDashboard, inFlight := 1 }

/-- The handler `handleManualRefresh`: `setTimer(30); fetchData()`. -/
def handleManualRefresh (a : AppState) : AppState :=
  { dash := fetchDataStart { a.dash with timer := 30 }, inFlight := a.inFlight + 1 }

/-- What can happen next: the 30-second interval fires, the one-second
countdown fires, the flap interval fires, the user clicks the update wheel, or
a pending request settles. -/
inductive Event where
  | cadence : Event
  | countdown : Event
  | flap : Event
  | click : Event
  | settle (o : FetchOutcome) : Event
  deriving DecidableEq, Repr

/-- One event of the loop.  The wheel is rendered with `disabled={loading}`, so
a click reaches `handleManualRefresh` only while `loading` is false. -/
def step (a : AppState) : Event → AppState
  | .cadence => { dash := fetchDataStart a.dash, inFlight := a.inFlight + 1 }
  | .countdown =>
    { a with dash := { a.dash with timer := if a.dash.timer > 0 then a.dash.timer - 1 else 0 } }
  | .flap => { a with dash := { a.dash with flapTrigger := a.dash.flapTrigger + 1 } }
  | .click => if a.dash.loading then a else handleManualRefresh a
  | .settle o =>
    if a.inFlight = 0 then a
    else { dash := (fetchDataComplete o a.dash).1, inFlight := a.inFlight - 1 }

/-- The state reached from mounting by a sequence of events. -/
def run (es : List Event) : AppState :=
  es.foldl step mounted

/-! ## The elapsed timer -/

/-- The method call `s.padStart(targetLength, c)` for a one-character pad. -/
def padStart (s : String) (targetLength : Nat) (c : Char) : String :=
  String.mk (List.replicate (targetLength - s.length) c) ++ s

/-- The largest time value of a `Date`, in milliseconds: `new Date(v)` is an
invalid date, with time value `NaN`, as soon as `|v|` exceeds it. -/
def maxTimeValue : Int := 8640000000000000

/-- The time value `v` lies in the range of `Date`. -/
def validTime (v : Int) : Bool :=
  decide (-maxTimeValue ≤ v ∧ v ≤ maxTimeValue)

/-- The number that holds the integer `x` after an arithmetic operation, for
`|x| < 2^54`: `x` itself up to `2^53`, beyond that the nearest even integer,
a tie going to the multiple of 4 (round to nearest, ties to even). -/
def roundDouble (x : Int) : Int :=
  if -9007199254740992 ≤ x ∧ x ≤ 9007199254740992 then x
  else if x % 2 = 0 then x
  else if (x + 1) % 4 = 0 then x + 1
  else x - 1

/-- The constant `diff = Math.floor((now - start) / 1000)` of `update()`, for a
valid `start = new Date(startedAt * 1000)` and a valid `now`: the difference of
two time values is below `2^54` and its quotient by 1000 is floored exactly. -/
def diffSeconds (startedAt now : Int) : Int :=
  Int.fdiv (roundDouble (now - startedAt * 1000)) 1000

/-- The string `duration` that `MatchTimer` shows after `update()` ran at the
clock value `now` (the time value of `new Date()`, epoch milliseconds).
`startedAt` is the provider's integer timestamp in epoch seconds, or `none` for
`null`/`undefined`.  With an invalid date `now - start` is `NaN`, so are
`diff`, `m` and `s`, the test `diff < 0` fails and both numbers print as
"NaN". -/
def MatchTimer (startedAt : Option Int) (now : Int) : String :=
  match startedAt with
  | none => "00:00"
  | some st =>
    if st = 0 then "00:00"
    else if validTime (st * 1000) && validTime now then
      let diff := diffSeconds st now
      if diff < 0 then "00:00"
      else
        let m := Int.fdiv diff 60
        let s := Int.tmod diff 60
        padStart (toString m) 2 '0' ++ ":" ++ padStart (toString s) 2 '0'
    else
      padStart "NaN" 2 '0' ++ ":" ++ padStart "NaN" 2 '0'

/-! ## The map editor (`src/src/MapEditor.jsx`) -/

/-- A station of the venue layout.  Its `id` is the text of the editor's
"Station ID" field. -/
structure MapStation where
  id : String
  x : Rat
  y : Rat
  shape : String
  rotation : Rat
  deriving DecidableEq, Repr

/-- The fields of the layout `config` that `addStation` reads or writes; the
other fields are copied unchanged by `...prev`. -/
structure MapConfig where
  stations : List MapStation
  width : Rat
  height : Rat
  deriving DecidableEq, Repr

/-- The white space that `parseInt` skips at the start of its argument. -/
def isStrWhiteSpace (c : Char) : Bool :=
  decide (c.toNat = 9 ∨ c.toNat = 10 ∨ c.toNat = 11 ∨ c.toNat = 12 ∨ c.toNat = 13
    ∨ c.toNat = 32 ∨ c.toNat = 160 ∨ c.toNat = 5760 ∨ (8192 ≤ c.toNat ∧ c.toNat ≤ 8202)
    ∨ c.toNat = 8232 ∨ c.toNat = 8233 ∨ c.toNat = 8239 ∨ c.toNat = 8287
    ∨ c.toNat = 12288 ∨ c.toNat = 65279)

/-- The value of `c` as a digit of the given radix, if it is one. -/
def digitOf (radix : Nat) (c : Char) : Option Nat :=
  let v :=
    if 48 ≤ c.toNat ∧ c.toNat ≤ 57 then c.toNat - 48
    else if 97 ≤ c.toNat ∧ c.toNat ≤ 122 then c.toNat - 87
    else if 65 ≤ c.toNat ∧ c.toNat ≤ 90 then c.toNat - 55
    else 36
  if v < radix then some v else none

/-- The number written by the longest prefix of digits; `none` when that
prefix is empty. -/
def parseDigits (radix : Nat) : List Char → Option Nat → Option Nat
  | [], acc => acc
  | c :: cs, acc =>
    match digitOf radix c with
    | some d => parseDigits radix cs (some (acc.getD 0 * radix + d))
    | none => acc

/-- The call `parseInt(s)` on a string, with `none` for `NaN`: skip white
space, read a sign, read a `0x` prefix, read the digits. -/
def parseInt (s : String) : Option Int :=
  let cs := s.data.dropWhile isStrWhiteSpace
  let signed : Int × List Char :=
    match cs with
    | '-' :: t => (-1, t)
    | '+' :: t => (1, t)
    | _ => (1, cs)
  let prefixed : Nat × List Char :=
    match signed.2 with
    | '0' :: 'x' :: t => (16, t)
    | '0' :: 'X' :: t => (16, t)
    | _ => (10, signed.2)
  (parseDigits prefixed.1 prefixed.2 none).map (fun n => signed.1 * (n : Int))

/-- The larger of two numbers, with `none` for `NaN`: `NaN` as soon as one of
them is `NaN`. -/
def maxNaN (a b : Option Int) : Option Int :=
  match a, b with
  | some x, some y => some (max x y)
  | _, _ => none

/-- The call `Math.max(x, ...xs)` on numbers, with `none` for `NaN`. -/
def mathMax (x : Option Int) (xs : List (Option Int)) : Option Int :=
  xs.foldl maxNaN x

/-- The constant `nextId` of `addStation`. -/
def nextId (config : MapConfig) : Option Int :=
  match config.stations.map (fun s => parseInt s.id) with
  | [] => some 1
  | x :: xs => (mathMax x xs).map (fun n => n + 1)

/-- The conversion `String(n)` of a number, with `none` for `NaN`. -/
def numToStr : Option Int → String
  | none => "NaN"
  | some n => toString n

/-- The action `addStation` of the map editor. -/
def addStation (config : MapConfig) : MapConfig :=
  { config with
    stations := config.stations ++
      [{ id := numToStr (nextId config), x := config.width / 2, y := config.height / 2,
         shape := "diamond", rotation := 0 }] }

/-! ## Specification helpers -/

/-- The last node of a list whose identifier has the string form `k`. -/
def lastWithKey (nodes : List SetNode) (k : String) : Option SetNode :=
  nodes.reverse.find? (fun s => s.id.toStr == k)

/-- The value `setMeta` receives in `fetchData`. -/
def metaOf (eventData : EventData) (tourney : Tournament) (images : List Image) : MetaInfo :=
  { tourneyName := tourney.name
    eventName := eventData.name
    logo := match logoObj images with
      | some img => img.url
      | none => .null }

/-- The event object of a response body, if `json.data && json.data.event` is truthy. -/
def eventOf (r : ResponseJson) : Option EventData :=
  match r.data with
  | none => none
  | some d => d.event

/-- The fetch succeeded: the body carries `data.event` and the `try` block ran
to its end without raising. -/
def fetchSucceeded (o : FetchOutcome) (s : Dashboard) : Bool :=
  match o with
  | .rejected => false
  | .json r =>
    match eventOf r with
    | none => false
    | some _ => decide ((tryBlock o s).2 = .ok ())

/-- Spec side of the elapsed timer: a number left-padded with zeros to two
digits. -/
def specTwoDigits (n : Nat) : String :=
  if n < 10 then "0" ++ toString n else toString n

/-- Spec side of the elapsed timer: `d` seconds as minutes `d div 60` and
seconds `d mod 60`, each with two digits, joined by a colon. -/
def specRender (d : Nat) : String :=
  specTwoDigits (d / 60) ++ ":" ++ specTwoDigits (d % 60)

/-- Spec side of the elapsed timer: the elapsed whole seconds
`floor((now - 1000 * s) / 1000)`. -/
def specElapsed (s now : Int) : Int :=
  Int.fdiv (now - 1000 * s) 1000

/-- Spec side of the elapsed timer: the value of a decimal digit character. -/
def digitVal (c : Char) : Nat :=
  c.toNat - 48

/-- Spec side of the elapsed timer: the shape `mm:ss`, exactly two decimal
digits, a colon, and two decimal digits that form a number below 60. -/
def isMmSs (str : String) : Bool :=
  match str.data with
  | [a, b, c, d, e] =>
    a.isDigit && b.isDigit && decide (c = ':') && d.isDigit && e.isDigit
      && decide (digitVal d * 10 + digitVal e < 60)
  | _ => false

/-- Spec side of `parseInt`: the number written by a list of decimal digit
characters, read from the left starting at `a`. -/
def digitsFold (a : Nat) (l : List Char) : Nat :=
  l.foldl (fun acc c => acc * 10 + (c.toNat - 48)) a

/-- Spec side of the scheduler: along the event sequence `es`, started in the
state `a`, every tick of the 30-second interval finds no fetch in flight (each
fetch has settled before the next cadence tick). -/
def cadenceFindsIdle (a : AppState) : List Event → Bool
  | [] => true
  | e :: es =>
    (match e with
      | .cadence => decide (a.inFlight = 0)
      | _ => true)
    && cadenceFindsIdle (step a e) es

/-! ## Sample data -/

/-- A slot holding the entrant called `nm`. -/
def namedSlot (nm : String) : Slot :=
  { entrant := some { name := .str nm }, prereqId := .null, prereqPlacement := .null }

/-- A slot waiting on set `pid` with placement `pl`. -/
def prereqSlot (pid : JSVal) (pl : JSVal) : Slot :=
  { entrant := none, prereqId := pid, prereqPlacement := pl }

/-- A completed-set node: only `id` and the slots are queried. -/
def completedNode (id : JSVal) (slots : List (Option Slot)) : SetNode :=
  { id := id, fullRoundText := .undefined, state := .undefined, startedAt := .undefined,
    station := none, stream := none, phaseGroup := none, slots := some slots }

/-- An active-set node without station, stream or phase group. -/
def activeNode (id : JSVal) (state : Int) (slots : List (Option Slot)) : SetNode :=
  { id := id, fullRoundText := .str "Round 1", state := .num state, startedAt := .null,
    station := none, stream := none, phaseGroup := none, slots := some slots }

/-- The index of the running example: completed set "10" (Alice vs Bob) and
completed set "9" whose second slot still waits on the winner of set "10". -/
def sampleIndex : SetMap :=
  buildSetMap
    [ completedNode (.str "10") [some (namedSlot "Alice"), some (namedSlot "Bob")],
      completedNode (.str "9") [some (namedSlot "Carol"), some (prereqSlot (.str "10") (.num 1))] ]
    []

/-- An index whose set "8" has an entrant with the empty name in its first slot. -/
def emptyNameIndex : SetMap :=
  buildSetMap [completedNode (.str "8") [some (namedSlot ""), some (namedSlot "Bob")]] []

/-- An index whose only set has the numeric identifier 0. -/
def zeroIdIndex : SetMap :=
  buildSetMap [completedNode (.num 0) [some (namedSlot "Dan"), some (namedSlot "Eve")]] []

/-- Five active sets in provider order: Open, Playing at station 5, Called
without a station, Playing without a station, Ready. -/
def sampleActive : List SetNode :=
  [ activeNode (.num 41) 1 [some (namedSlot "Alice"), some (namedSlot "Bob")],
    { activeNode (.num 42) 2 [some (namedSlot "Carol"), some (namedSlot "Dan")] with
      station := some { id := .num 900, number := .num 5 } },
    activeNode (.num 43) 6 [some (namedSlot "Eve"), some (namedSlot "Fay")],
    activeNode (.num 44) 2 [some (namedSlot "Gus"), some (namedSlot "Hal")],
    activeNode (.num 45) 4 [some (namedSlot "Ivy"), some (namedSlot "Jon")] ]

/-- The display match of a set whose two slots hold the entrants `a` and `b`. -/
def knownMatch (id : Int) (a b : String) (station : JSVal) (status : Int) : DisplayMatch :=
  { id := .num id, p1 := .str a, p2 := .str b,
    s1Info := { text := .str a, isKnown := true, isDeepKnown := true },
    s2Info := { text := .str b, isKnown := true, isDeepKnown := true },
    round := "Bracket: Round 1", station := station, isStream := false,
    startedAt := .null, status := .num status }

/-- The display matches of `sampleActive`. -/
def sampleMatches : List DisplayMatch :=
  [ knownMatch 41 "Alice" "Bob" .null 1,
    knownMatch 42 "Carol" "Dan" (.str "5") 2,
    knownMatch 43 "Eve" "Fay" .null 6,
    knownMatch 44 "Gus" "Hal" .null 2,
    knownMatch 45 "Ivy" "Jon" .null 4 ]

/-- A state-6 display match whose two slots are both unresolved placeholders. -/
def calledUnknown : DisplayMatch :=
  { id := .num 31, p1 := .str "TBD", p2 := .str "TBD",
    s1Info := { text := .str "TBD", isKnown := false, isDeepKnown := false },
    s2Info := { text := .str "TBD", isKnown := false, isDeepKnown := false },
    round := "Bracket: Round 1", station := .str "4", isStream := false,
    startedAt := .null, status := .num 6 }

/-- A state-5 display match with both slots deep-known. -/
def pendingKnown : DisplayMatch :=
  { id := .num 32, p1 := .str "Alice", p2 := .str "Winner of Carol vs Dan",
    s1Info := { text := .str "Alice", isKnown := true, isDeepKnown := true },
    s2Info := { text := .str "Winner of Carol vs Dan", isKnown := false, isDeepKnown := true },
    round := "Bracket: Round 2", station := .null, isStream := false,
    startedAt := .null, status := .num 5 }

/-- A state-4 display match with both slots known. -/
def readyKnown : DisplayMatch :=
  { id := .num 33, p1 := .str "Alice", p2 := .str "Bob",
    s1Info := { text := .str "Alice", isKnown := true, isDeepKnown := true },
    s2Info := { text := .str "Bob", isKnown := true, isDeepKnown := true },
    round := "Bracket: Round 2", station := .null, isStream := false,
    startedAt := .null, status := .num 4 }

/-- Scenario C: a set in progress (state 2) at station `{number: "5"}`, not on
stream. -/
def scenarioC : SetNode :=
  { activeNode (.num 50) 2 [some (namedSlot "Alice"), some (namedSlot "Bob")] with
    station := some { id := .num 901, number := .str "5" } }

/-- A called set (state 6) at station number 7. -/
def calledAtSeven : SetNode :=
  { activeNode (.num 51) 6 [some (namedSlot "Carol"), some (namedSlot "Dan")] with
    station := some { id := .num 902, number := .num 7 } }

/-- Scenario A, completed list: set "10" was Alice against Bob. -/
def scenarioACompleted : List SetNode :=
  [completedNode (.str "10") [some (namedSlot "Alice"), some (namedSlot "Bob")]]

/-- Scenario A, active list: set "11" is pending, its first slot waits on the
winner of set "10", its second slot holds Carol. -/
def scenarioAActive : List SetNode :=
  [activeNode (.str "11") 5 [some (prereqSlot (.str "10") (.num 1)), some (namedSlot "Carol")]]

/-- Scenario A with an empty entrant name in the first slot of set "10". -/
def emptyNameCompleted : List SetNode :=
  [completedNode (.str "10") [some (namedSlot ""), some (namedSlot "Bob")]]

/-- A tournament with a banner and a profile image. -/
def sampleTournament : Tournament :=
  { name := .str "Harbor Clash",
    images := some [ { url := .str "banner.png", type := .str "banner" },
                     { url := .str "logo.png", type := .str "profile" } ] }

/-- An event whose sets are those of Scenario A. -/
def sampleEvent : EventData :=
  { name := .str "Singles", tournament := some sampleTournament,
    activeSets := some { nodes := some scenarioAActive },
    completedSets := some { nodes := some scenarioACompleted } }

/-- A successful response body. -/
def sampleResponse : ResponseJson :=
  { data := some { event := some sampleEvent }, errors := none }

/-- The same body with a reported error list next to `data.event`. -/
def errorsResponse : ResponseJson :=
  { data := some { event := some sampleEvent }, errors := some [.str "query complexity"] }

/-- A body whose event came back without its `activeSets` connection. -/
def noSetsResponse : ResponseJson :=
  { data := some { event := some { sampleEvent with activeSets := none } }, errors := none }

/-- A body without `data.event`. -/
def noEventResponse : ResponseJson :=
  { data := some { event := none }, errors := some [.str "Invalid authentication token"] }

/-- The display match of Scenario A. -/
def scenarioAMatch : DisplayMatch :=
  { id := .str "11", p1 := .str "Winner of Alice vs Bob", p2 := .str "Carol",
    s1Info := { text := .str "Winner of Alice vs Bob", isKnown := false, isDeepKnown := true },
    s2Info := { text := .str "Carol", isKnown := true, isDeepKnown := true },
    round := "Bracket: Round 1", station := .null, isStream := false,
    startedAt := .null, status := .num 5 }

/-- A dashboard that shows an earlier cycle, with the countdown run down to 0. -/
def staleDashboard : Dashboard :=
  { matches_ := sampleMatches, upcomingMatches := upcomingFiltered sampleMatches,
    meta := { tourneyName := .str "Old Cup", eventName := .str "Doubles", logo := .null },
    timer := 0, flapTrigger := 3, loading := true }

/-- A second earlier dashboard, different from `staleDashboard` in every field. -/
def otherDashboard : Dashboard :=
  { matches_ := [calledUnknown], upcomingMatches := [pendingKnown],
    meta := { tourneyName := .str "LOADING...", eventName := .str "SYSTEM_INIT", logo := .null },
    timer := 12, flapTrigger := 0, loading := true }

/-- A trace: the mount request settles, the countdown runs for 29 seconds, the
user clicks the wheel, and the 30-second interval fires before the request of
the click has settled. -/
def overlapTrace : List Event :=
  [Event.settle (.json sampleResponse)] ++ List.replicate 29 Event.countdown
    ++ [Event.click, Event.cadence]

/-- A successful response whose active connection has an empty `nodes` array. -/
def emptyActiveResponse : ResponseJson :=
  { data := some { event := some { sampleEvent with activeSets := some { nodes := some [] } } },
    errors := none }

/-- A successful response whose active connection has `nodes: null`. -/
def nullActiveResponse : ResponseJson :=
  { data := some { event := some { sampleEvent with activeSets := some { nodes := none } } },
    errors := none }

/-- A slot whose entrant object has the empty string as name. -/
def emptyEntrantSlot : Slot :=
  { entrant := some { name := .str "" }, prereqId := .null, prereqPlacement := .null }

/-- A slot whose entrant object has `name: null`. -/
def nullEntrantSlot : Slot :=
  { entrant := some { name := .null }, prereqId := .str "10", prereqPlacement := .num 1 }

/-- The layout of a new editor, without stations. -/
def emptyLayout : MapConfig :=
  { stations := [], width := 800, height := 600 }

/-- A layout whose only station was renamed to "A" in the Station ID field. -/
def renamedLayout : MapConfig :=
  { stations := [{ id := "A", x := 400, y := 300, shape := "diamond", rotation := 0 }],
    width := 800, height := 600 }

/-- The identifiers of the stations of a layout, in order. -/
def stationIds (config : MapConfig) : List String :=
  config.stations.map (fun s => s.id)

/-- A run in which every fetch settles before the next cadence tick: a click
during the first fetch, its response, a cadence tick, a click during the second
fetch. -/
def serialTrace : List Event :=
  [Event.click, Event.settle (.json sampleResponse), Event.countdown, Event.cadence, Event.click]

/-! ## Lemmas -/

theorem JSVal.toStr_str (s : String) : (JSVal.str s).toStr = s := rfl

theorem SetMap.has_eq_isSome_get (m : SetMap) (k : String) : m.has k = (m.get k).isSome := by
  unfold SetMap.has SetMap.get
  induction m with
  | nil => rfl
  | cons e t ih =>
    by_cases h : (e.1 == k) = true
    · simp [List.find?, h]
    · simp only [Bool.not_eq_true] at h
      simp [List.find?, h, ih]

theorem fallback_text_ne_empty (a b : String) : a ++ ". of Set " ++ b ≠ "" := by
  intro h
  have h2 := congrArg String.length h
  simp only [String.length_append] at h2
  have h3 : ". of Set ".length = 9 := by decide
  have h4 : "".length = 0 := by decide
  omega

theorem SetMap.get_replace (m : SetMap) (k k2 : String) (v : SetNode) :
    SetMap.get (m.map (fun e => if e.1 = k then (k, v) else e)) k2
      = if k2 = k then (if m.has k then some v else none) else m.get k2 := by
  unfold SetMap.get SetMap.has
  induction m with
  | nil => simp
  | cons e t ih =>
    simp only [List.map_cons, List.find?_cons, List.any_cons]
    by_cases h1 : e.1 = k
    · by_cases h2 : k2 = k
      · subst h2
        have hb : (e.1 == k2) = true := by simpa using h1
        simp [h1, hb]
      · have hb : (k == k2) = false := by simpa using (fun h : k = k2 => h2 h.symm)
        have hb2 : (e.1 == k2) = false := by rw [h1]; exact hb
        simp only [h1, if_true, hb, hb2]
        rw [ih]
        simp [h2]
    · have hb : (e.1 == k) = false := by simpa using h1
      by_cases h2 : k2 = k
      · subst h2
        simp only [h1, if_false, hb, Bool.false_or]
        rw [ih]
        simp
      · by_cases h3 : e.1 = k2
        · have hb3 : (e.1 == k2) = true := by simpa using h3
          simp only [h1, if_false, hb3, h2]
        · have hb3 : (e.1 == k2) = false := by simpa using h3
          simp only [h1, if_false, hb3]
          rw [ih]
          simp [h2]

theorem SetMap.get_append_single (m : SetMap) (k k2 : String) (v : SetNode) :
    SetMap.get (m ++ [(k, v)]) k2
      = match m.get k2 with
        | some s => some s
        | none => if k2 = k then some v else none := by
  unfold SetMap.get
  induction m with
  | nil =>
    simp only [List.nil_append, List.find?_cons, List.find?_nil]
    by_cases h : k = k2
    · have hb : (k == k2) = true := by simpa using h
      simp [hb, h]
    · have hb : (k == k2) = false := by simpa using h
      have h3 : ¬ (k2 = k) := fun h2 => h h2.symm
      simp [hb, h3]
  | cons e t ih =>
    simp only [List.cons_append, List.find?_cons]
    by_cases h : e.1 = k2
    · have hb : (e.1 == k2) = true := by simpa using h
      simp [hb]
    · have hb : (e.1 == k2) = false := by simpa using h
      simp only [hb]
      exact ih

theorem SetMap.get_set (m : SetMap) (k k2 : String) (v : SetNode) :
    (m.set k v).get k2 = if k2 = k then some v else m.get k2 := by
  unfold SetMap.set
  by_cases hAny : m.any (fun e => e.1 == k) = true
  · rw [if_pos hAny, SetMap.get_replace]
    have : m.has k = true := hAny
    simp [this]
  · rw [if_neg hAny, SetMap.get_append_single]
    have hHas : m.has k = false := by
      unfold SetMap.has
      exact Bool.eq_false_iff.mpr hAny
    by_cases h2 : k2 = k
    · subst h2
      have hg : m.get k2 = none := by
        have := SetMap.has_eq_isSome_get m k2
        rw [hHas] at this
        cases hgk : m.get k2 with
        | none => rfl
        | some s => rw [hgk] at this; cases this
      simp [hg]
    · simp only [h2, if_false]
      cases m.get k2 <;> rfl

theorem lastWithKey_append_single (nodes : List SetNode) (s : SetNode) (k : String) :
    lastWithKey (nodes ++ [s]) k = if s.id.toStr = k then some s else lastWithKey nodes k := by
  unfold lastWithKey
  by_cases h : s.id.toStr = k <;> simp [List.find?, h]

theorem get_insertAll (nodes : List SetNode) (m : SetMap) (k : String) :
    (insertAll m nodes).get k
      = match lastWithKey nodes k with
        | some s => some s
        | none => m.get k := by
  induction nodes using List.reverseRecOn with
  | nil => simp [insertAll, lastWithKey]
  | append_singleton l s ih =>
    have hstep : insertAll m (l ++ [s]) = (insertAll m l).set s.id.toStr s := by
      simp [insertAll, List.foldl_append]
    rw [hstep, SetMap.get_set, lastWithKey_append_single]
    by_cases h : s.id.toStr = k
    · simp [h]
    · have h2 : ¬ (k = s.id.toStr) := fun e => h e.symm
      simp only [h, h2, if_false]
      exact ih

theorem lastWithKey_some (nodes : List SetNode) (k : String) (s : SetNode)
    (h : lastWithKey nodes k = some s) : s ∈ nodes ∧ s.id.toStr = k := by
  unfold lastWithKey at h
  have h1 := List.find?_some h
  have h2 := List.mem_of_find?_eq_some h
  exact ⟨by simpa using h2, by simpa using h1⟩

theorem lastWithKey_none (nodes : List SetNode) (k : String) :
    lastWithKey nodes k = none ↔ ∀ s ∈ nodes, s.id.toStr ≠ k := by
  unfold lastWithKey
  simp [List.find?_eq_none]

theorem buildSetMap_get (completedNodes activeNodes : List SetNode) (k : String) :
    (buildSetMap completedNodes activeNodes).get k
      = match lastWithKey activeNodes k with
        | some s => some s
        | none => lastWithKey completedNodes k := by
  unfold buildSetMap
  rw [get_insertAll]
  cases lastWithKey activeNodes k with
  | some s => rfl
  | none =>
    show (insertAll [] completedNodes).get k = lastWithKey completedNodes k
    rw [get_insertAll]
    cases lastWithKey completedNodes k <;> rfl

theorem cleanData_cons_eq (setMap : SetMap) (n : SetNode) (ns : List SetNode) :
    cleanData setMap (n :: ns)
      = (match displayMatch setMap n with
        | .error e => .error e
        | .ok d =>
          match cleanData setMap ns with
          | .error e => .error e
          | .ok ds => .ok (d :: ds)) := by
  rw [cleanData]
  cases displayMatch setMap n with
  | error e => rfl
  | ok d => cases cleanData setMap ns <;> rfl

theorem cleanData_cons_ok (setMap : SetMap) (n : SetNode) (ns : List SetNode)
    (ms : List DisplayMatch) :
    cleanData setMap (n :: ns) = .ok ms ↔
      ∃ d ds, displayMatch setMap n = .ok d ∧ cleanData setMap ns = .ok ds ∧ ms = d :: ds := by
  rw [cleanData_cons_eq]
  cases hd : displayMatch setMap n with
  | error e =>
    constructor
    · intro h; cases h
    · rintro ⟨d2, ds2, h1, _, _⟩; cases h1
  | ok d =>
    cases hds : cleanData setMap ns with
    | error e =>
      constructor
      · intro h; cases h
      · rintro ⟨d2, ds2, _, h2, _⟩; cases h2
    | ok ds =>
      constructor
      · intro h
        injection h with h
        exact ⟨d, ds, rfl, rfl, h.symm⟩
      · rintro ⟨d2, ds2, h1, h2, h3⟩
        injection h1 with h1
        injection h2 with h2
        rw [h3, h1, h2]

theorem cleanData_nil_ok (setMap : SetMap) (ms : List DisplayMatch) :
    cleanData setMap [] = .ok ms ↔ ms = [] := by
  unfold cleanData
  constructor
  · intro h; injection h with h; exact h.symm
  · intro h; rw [h]

theorem cleanData_sublist (setMap : SetMap) (activeNodes : List SetNode) :
    ∀ (ms sub2 : List DisplayMatch), cleanData setMap activeNodes = .ok ms → sub2.Sublist ms →
      ∃ sub, sub.Sublist activeNodes ∧ cleanData setMap sub = .ok sub2 := by
  induction activeNodes with
  | nil =>
    intro ms sub2 h hs
    rw [cleanData_nil_ok] at h
    subst h
    have : sub2 = [] := List.sublist_nil.mp hs
    subst this
    exact ⟨[], List.Sublist.refl _, rfl⟩
  | cons n ns ih =>
    intro ms sub2 h hs
    rw [cleanData_cons_ok] at h
    obtain ⟨d, ds, hd, hds, rfl⟩ := h
    cases hs with
    | cons _ hs2 =>
      obtain ⟨sub, h1, h2⟩ := ih ds sub2 hds hs2
      exact ⟨sub, List.Sublist.cons _ h1, h2⟩
    | cons₂ _ hs2 =>
      rename_i tl
      obtain ⟨sub, h1, h2⟩ := ih ds tl hds hs2
      exact ⟨n :: sub, List.Sublist.cons₂ _ h1,
        (cleanData_cons_ok setMap n sub _).mpr ⟨d, tl, hd, h2, rfl⟩⟩

theorem cleanData_mem (setMap : SetMap) (activeNodes : List SetNode) :
    ∀ (ms : List DisplayMatch), cleanData setMap activeNodes = .ok ms →
      ∀ m ∈ ms, ∃ n ∈ activeNodes, displayMatch setMap n = .ok m := by
  induction activeNodes with
  | nil =>
    intro ms h m hm
    rw [cleanData_nil_ok] at h
    subst h
    cases hm
  | cons n ns ih =>
    intro ms h m hm
    rw [cleanData_cons_ok] at h
    obtain ⟨d, ds, hd, hds, rfl⟩ := h
    rcases List.mem_cons.mp hm with h1 | h1
    · subst h1
      exact ⟨n, List.mem_cons_self _ _, hd⟩
    · obtain ⟨n2, hn2, hd2⟩ := ih ds hds m h1
      exact ⟨n2, List.mem_cons_of_mem _ hn2, hd2⟩

theorem displayMatch_station (setMap : SetMap) (n : SetNode) (m : DisplayMatch)
    (h : displayMatch setMap n = .ok m) :
    m.status = n.state ∧ m.id = n.id ∧
      m.station = (match n.station with
        | some st => JSVal.str st.number.toStr
        | none => JSVal.null) := by
  unfold displayMatch at h
  cases h1 : resolveNodeSlot setMap n 0 with
  | error e => rw [h1] at h; simp [bind, Except.bind] at h
  | ok s1 =>
    cases h2 : resolveNodeSlot setMap n 1 with
    | error e => rw [h1, h2] at h; simp [bind, Except.bind] at h
    | ok s2 =>
      rw [h1, h2] at h
      simp only [bind, Except.bind, pure, Except.pure] at h
      injection h with h
      subst h
      exact ⟨rfl, rfl, rfl⟩

theorem includes_iff (xs : List JSVal) (v : JSVal) : includes xs v = true ↔ v ∈ xs := by
  unfold includes
  simp only [List.any_eq_true, decide_eq_true_eq]
  constructor
  · rintro ⟨x, hx, rfl⟩; exact hx
  · intro h; exact ⟨v, h, rfl⟩

theorem cleanData_node (setMap : SetMap) (activeNodes : List SetNode) :
    ∀ (ms : List DisplayMatch), cleanData setMap activeNodes = .ok ms →
      ∀ n ∈ activeNodes, ∃ m ∈ ms, displayMatch setMap n = .ok m := by
  induction activeNodes with
  | nil =>
    intro ms _ n hn
    cases hn
  | cons a ns ih =>
    intro ms h n hn
    rw [cleanData_cons_ok] at h
    obtain ⟨d, ds, hd, hds, rfl⟩ := h
    rcases List.mem_cons.mp hn with h1 | h1
    · subst h1
      exact ⟨d, List.mem_cons_self _ _, hd⟩
    · obtain ⟨m, hm, hd2⟩ := ih ds hds n h1
      exact ⟨m, List.mem_cons_of_mem _ hm, hd2⟩

theorem tryBlock_json (r : ResponseJson) (s : Dashboard) :
    tryBlock (.json r) s
      = (match eventOf r with
        | none => (s, .ok ())
        | some eventData => processEvent eventData s) := by
  rcases r with ⟨data, errors⟩
  cases data with
  | none => rfl
  | some d =>
    rcases d with ⟨ev⟩
    cases ev <;> rfl

theorem processEvent_ok (eventData : EventData) (s : Dashboard)
    (h : (processEvent eventData s).2 = .ok ()) :
    ∃ tourney images act comp cd,
      eventData.tournament = some tourney ∧ tourney.images = some images ∧
      eventData.activeSets = some act ∧ eventData.completedSets = some comp ∧
      cleanData (buildSetMap (comp.nodes.getD []) (act.nodes.getD [])) (act.nodes.getD [])
        = .ok cd ∧
      (processEvent eventData s).1
        = { s with meta := metaOf eventData tourney images, matches_ := cd,
                   upcomingMatches := upcomingFiltered cd, timer := 30 } := by
  unfold processEvent at h ⊢
  cases h1 : eventData.tournament with
  | none => rw [h1] at h; cases h
  | some tourney =>
    cases h2 : tourney.images with
    | none => simp only [h1, h2] at h; cases h
    | some images =>
      cases h3 : eventData.activeSets with
      | none => simp only [h1, h2, h3] at h; cases h
      | some act =>
        cases h4 : eventData.completedSets with
        | none => simp only [h1, h2, h3, h4] at h; cases h
        | some comp =>
          cases h5 : cleanData (buildSetMap (comp.nodes.getD []) (act.nodes.getD []))
              (act.nodes.getD []) with
          | error e => simp only [h1, h2, h3, h4, h5] at h; cases h
          | ok cd =>
            refine ⟨tourney, images, act, comp, cd, rfl, h2, rfl, rfl, h5, ?_⟩
            simp only [h2, h5]
            rfl

theorem processEvent_error (eventData : EventData) (s : Dashboard) (e : JSError)
    (h : (processEvent eventData s).2 = .error e) :
    (processEvent eventData s).1.matches_ = s.matches_
    ∧ (processEvent eventData s).1.upcomingMatches = s.upcomingMatches
    ∧ (processEvent eventData s).1.timer = s.timer
    ∧ (processEvent eventData s).1.loading = s.loading
    ∧ (processEvent eventData s).1.flapTrigger = s.flapTrigger := by
  unfold processEvent at h ⊢
  rcases eventData with ⟨name, tournament, activeSets, completedSets⟩
  cases tournament with
  | none => exact ⟨rfl, rfl, rfl, rfl, rfl⟩
  | some tourney =>
    rcases tourney with ⟨tname, imgs⟩
    cases imgs with
    | none => exact ⟨rfl, rfl, rfl, rfl, rfl⟩
    | some images =>
      cases activeSets with
      | none => exact ⟨rfl, rfl, rfl, rfl, rfl⟩
      | some act =>
        cases completedSets with
        | none => exact ⟨rfl, rfl, rfl, rfl, rfl⟩
        | some comp =>
          dsimp only at h ⊢
          generalize cleanData (buildSetMap (comp.nodes.getD []) (act.nodes.getD []))
              (act.nodes.getD []) = res at h ⊢
          cases res with
          | error e2 => exact ⟨rfl, rfl, rfl, rfl, rfl⟩
          | ok cd => cases h

theorem processEvent_early (eventData : EventData) (s : Dashboard)
    (h : eventData.tournament = none ∨
      ∃ tourney, eventData.tournament = some tourney ∧ tourney.images = none) :
    processEvent eventData s = (s, .error .typeError) := by
  unfold processEvent
  rcases h with h | ⟨tourney, h1, h2⟩
  · rw [h]
  · simp only [h1, h2]

theorem processEvent_result (eventData : EventData) (s1 s2 : Dashboard) :
    (processEvent eventData s1).2 = (processEvent eventData s2).2 := by
  unfold processEvent
  rcases eventData with ⟨name, tournament, activeSets, completedSets⟩
  cases tournament with
  | none => rfl
  | some tourney =>
    rcases tourney with ⟨tname, imgs⟩
    cases imgs with
    | none => rfl
    | some images =>
      cases activeSets with
      | none => rfl
      | some act =>
        cases completedSets with
        | none => rfl
        | some comp =>
          dsimp only
          generalize cleanData (buildSetMap (comp.nodes.getD []) (act.nodes.getD []))
              (act.nodes.getD []) = res
          cases res <;> rfl

theorem fetchDataComplete_eq (o : FetchOutcome) (s : Dashboard) :
    fetchDataComplete o s = ({ (tryBlock o s).1 with loading := false }, .ok ()) := by
  unfold fetchDataComplete tryFinally tryCatch
  rcases hb : tryBlock o s with ⟨s1, r⟩
  cases r with
  | error e => rfl
  | ok u => cases u; rfl

theorem resolveSlotInfo_derived (setMap : SetMap) (slot : Slot) (pSet : SetNode)
    (ss : List (Option Slot)) (A B : String)
    (hE : slot.entrant = none) (hT : slot.prereqId.truthy = true)
    (hGet : setMap.get slot.prereqId.toStr = some pSet)
    (hS : pSet.slots = some ss)
    (hA : slotEntrantName ss 0 = .str A) (hB : slotEntrantName ss 1 = .str B)
    (hA0 : A ≠ "") (hB0 : B ≠ "") :
    resolveSlotInfo setMap slot
      = .ok { text := .str ((if slot.prereqPlacement = .num 1 then "Winner" else "Loser")
                        ++ " of " ++ A ++ " vs " ++ B),
              isKnown := false, isDeepKnown := true } := by
  have hHas : setMap.has slot.prereqId.toStr = true := by
    rw [SetMap.has_eq_isSome_get, hGet]; rfl
  have hAt : (JSVal.str A).truthy = true := by simp [JSVal.truthy, hA0]
  have hBt : (JSVal.str B).truthy = true := by simp [JSVal.truthy, hB0]
  unfold resolveSlotInfo
  simp only [hE, hT, hHas, hGet, hS, hA, hB, hAt, hBt, if_true, Bool.and_self,
    JSVal.toStr_str]

theorem displayMatch_ok (setMap : SetMap) (n : SetNode) (m : DisplayMatch)
    (h : displayMatch setMap n = .ok m) :
    ∃ s1 s2, resolveNodeSlot setMap n 0 = .ok s1 ∧ resolveNodeSlot setMap n 1 = .ok s2
      ∧ m.p1 = s1.text ∧ m.p2 = s2.text ∧ m.s1Info = s1 ∧ m.s2Info = s2
      ∧ m.status = n.state ∧ m.id = n.id := by
  unfold displayMatch at h
  cases h1 : resolveNodeSlot setMap n 0 with
  | error e => rw [h1] at h; simp [bind, Except.bind] at h
  | ok s1 =>
    cases h2 : resolveNodeSlot setMap n 1 with
    | error e => rw [h1, h2] at h; simp [bind, Except.bind] at h
    | ok s2 =>
      rw [h1, h2] at h
      simp only [bind, Except.bind, pure, Except.pure] at h
      injection h with h
      subst h
      exact ⟨s1, s2, rfl, rfl, rfl, rfl, rfl, rfl, rfl, rfl⟩

theorem lastWithKey_unique (nodes : List SetNode) (c : SetNode) (hc : c ∈ nodes)
    (huniq : ∀ c2 ∈ nodes, c2.id.toStr = c.id.toStr → c2 = c) :
    lastWithKey nodes c.id.toStr = some c := by
  cases hl : lastWithKey nodes c.id.toStr with
  | none => exact absurd rfl ((lastWithKey_none nodes c.id.toStr).mp hl c hc)
  | some c2 =>
    obtain ⟨h1, h2⟩ := lastWithKey_some nodes c.id.toStr c2 hl
    rw [huniq c2 h1 h2]

theorem processEvent_success (eventData : EventData) (tourney : Tournament)
    (images : List Image) (act comp : SetConnection) (cd : List DisplayMatch)
    (h1 : eventData.tournament = some tourney) (h2 : tourney.images = some images)
    (h3 : eventData.activeSets = some act) (h4 : eventData.completedSets = some comp)
    (h5 : cleanData (buildSetMap (comp.nodes.getD []) (act.nodes.getD [])) (act.nodes.getD [])
      = .ok cd) (s : Dashboard) :
    processEvent eventData s
      = ({ s with meta := metaOf eventData tourney images, matches_ := cd,
                  upcomingMatches := upcomingFiltered cd, timer := 30 }, .ok ()) := by
  unfold processEvent
  simp only [h1, h2, h3, h4, h5]
  rfl

theorem fetchSucceeded_iff (o : FetchOutcome) (s : Dashboard) :
    fetchSucceeded o s = true ↔
      ∃ r eventData, o = .json r ∧ eventOf r = some eventData
        ∧ (processEvent eventData s).2 = .ok () := by
  cases o with
  | rejected =>
    constructor
    · intro h; cases h
    · rintro ⟨r, ev, h, _, _⟩; cases h
  | json r =>
    unfold fetchSucceeded
    cases hev : eventOf r with
    | none =>
      simp only [hev]
      constructor
      · intro h; cases h
      · rintro ⟨r2, ev, h, h2, _⟩
        injection h with h
        subst h
        rw [hev] at h2
        cases h2
    | some ev =>
      simp only [decide_eq_true_eq, tryBlock_json, hev]
      constructor
      · intro h; exact ⟨r, ev, rfl, hev, h⟩
      · rintro ⟨r2, ev2, h, h2, h3⟩
        injection h with h
        subst h
        rw [hev] at h2
        injection h2 with h2
        subst h2
        exact h3

theorem tryBlock_failed (o : FetchOutcome) (s : Dashboard) (h : fetchSucceeded o s = false) :
    (tryBlock o s).1.matches_ = s.matches_
    ∧ (tryBlock o s).1.upcomingMatches = s.upcomingMatches
    ∧ (tryBlock o s).1.timer = s.timer := by
  cases o with
  | rejected => exact ⟨rfl, rfl, rfl⟩
  | json r =>
    unfold fetchSucceeded at h
    rw [tryBlock_json] at h ⊢
    cases hev : eventOf r with
    | none => exact ⟨rfl, rfl, rfl⟩
    | some ev =>
      simp only [hev, decide_eq_false_iff_not] at h ⊢
      cases hres : (processEvent ev s).2 with
      | ok u => cases u; exact absurd hres h
      | error e =>
        obtain ⟨a, b, c, _, _⟩ := processEvent_error ev s e hres
        exact ⟨a, b, c⟩

theorem toDigitsCore_length_pos (f n : Nat) (hf : 0 < f) :
    1 ≤ (Nat.toDigitsCore 10 f n []).length := by
  cases f with
  | zero => omega
  | succ f2 =>
    simp only [Nat.toDigitsCore]
    split
    · simp
    · rw [Nat.toDigitsCore_lens_eq]
      omega

theorem toString_length_ge_two (n : Nat) (h : 10 ≤ n) : 2 ≤ (toString n).length := by
  show 2 ≤ (Nat.repr n).length
  simp only [Nat.repr, Nat.toDigits, String.length, List.asString]
  simp only [Nat.toDigitsCore]
  have h0 : n / 10 ≠ 0 := by omega
  rw [if_neg h0, Nat.toDigitsCore_lens_eq]
  have := toDigitsCore_length_pos n (n / 10) (by omega)
  omega

theorem padStart_two (n : Nat) : padStart (toString n) 2 '0' = specTwoDigits n := by
  unfold specTwoDigits
  by_cases h : n < 10
  · rw [if_pos h]
    interval_cases n <;> rfl
  · rw [if_neg h]
    unfold padStart
    have h2 := toString_length_ge_two n (by omega)
    have h3 : 2 - (toString n).length = 0 := by omega
    rw [h3]
    show ("" : String) ++ toString n = toString n
    exact String.empty_append _

theorem roundDouble_exact (x : Int)
    (h : -9007199254740992 ≤ x ∧ x ≤ 9007199254740992) : roundDouble x = x := by
  unfold roundDouble
  rw [if_pos h]

theorem roundDouble_sign (x : Int) :
    (x < 0 → roundDouble x < 0) ∧ (0 ≤ x → 0 ≤ roundDouble x) := by
  unfold roundDouble
  constructor
  · intro h
    split
    · exact h
    · split
      · exact h
      · split <;> omega
  · intro h
    split
    · exact h
    · split
      · exact h
      · split <;> omega

theorem diffSeconds_exact (st now : Int)
    (h : -9007199254740992 ≤ now - 1000 * st ∧ now - 1000 * st ≤ 9007199254740992) :
    diffSeconds st now = specElapsed st now := by
  unfold diffSeconds specElapsed
  rw [mul_comm st 1000, roundDouble_exact _ h]

theorem diffSeconds_whole (st now : Int) (h0 : 0 ≤ now - 1000 * st)
    (hx : now - 1000 * st ≤ 9007199254740992 ∨ now % 1000 ≠ 999) :
    diffSeconds st now = specElapsed st now := by
  rcases hx with hx | hx
  · exact diffSeconds_exact st now ⟨by omega, hx⟩
  · unfold diffSeconds specElapsed
    rw [mul_comm st 1000, Int.fdiv_eq_ediv _ (by decide), Int.fdiv_eq_ediv _ (by decide)]
    unfold roundDouble
    split
    · rfl
    · split
      · rfl
      · split <;> omega

theorem diffSeconds_neg (st now : Int) :
    (now < st * 1000 → diffSeconds st now < 0) ∧ (st * 1000 ≤ now → 0 ≤ diffSeconds st now) := by
  unfold diffSeconds
  rw [Int.fdiv_eq_ediv _ (by decide)]
  constructor
  · intro h
    have h1 := (roundDouble_sign (now - st * 1000)).1 (by omega)
    apply Int.ediv_lt_of_lt_mul (by decide)
    omega
  · intro h
    have h1 := (roundDouble_sign (now - st * 1000)).2 (by omega)
    exact Int.ediv_nonneg h1 (by decide)

theorem specElapsed_neg (st now : Int) : specElapsed st now < 0 ↔ now < st * 1000 := by
  unfold specElapsed
  rw [Int.fdiv_eq_ediv _ (by decide)]
  constructor
  · intro h
    by_contra hc
    have : 0 ≤ (now - 1000 * st) / 1000 := Int.ediv_nonneg (by omega) (by decide)
    omega
  · intro h
    apply Int.ediv_lt_of_lt_mul (by decide)
    omega

theorem matchTimer_of_elapsed (st now : Int) (d : Nat) (hs : st ≠ 0)
    (hv : validTime (st * 1000) = true) (hn : validTime now = true)
    (hd : diffSeconds st now = (d : Int)) :
    MatchTimer (some st) now = specRender d := by
  unfold MatchTimer specRender
  simp only [hs, if_false, hv, hn, Bool.and_self, if_true, hd]
  have hneg : ¬ ((d : Int) < 0) := by omega
  rw [if_neg hneg]
  have hm : Int.fdiv (d : Int) 60 = ((d / 60 : Nat) : Int) := by
    rw [Int.fdiv_eq_ediv _ (by decide)]; norm_cast
  have hsec : Int.tmod (d : Int) 60 = ((d % 60 : Nat) : Int) := rfl
  rw [hm, hsec]
  show padStart (toString (d / 60)) 2 '0' ++ ":" ++ padStart (toString (d % 60)) 2 '0' = _
  rw [padStart_two, padStart_two]

theorem matchTimer_before_start (st now : Int)
    (hv : validTime (st * 1000) = true) (hn : validTime now = true)
    (h : now < st * 1000) : MatchTimer (some st) now = "00:00" := by
  unfold MatchTimer
  by_cases hs : st = 0
  · simp only [hs, if_true]
  · have h2 := (diffSeconds_neg st now).1 h
    simp only [hs, if_false, hv, hn, Bool.and_self, if_true, h2]

theorem specTwoDigits_data (n : Nat) (h : n < 100) :
    (specTwoDigits n).data = [Nat.digitChar (n / 10), Nat.digitChar (n % 10)] := by
  interval_cases n <;> rfl

theorem digitChar_isDigit (k : Nat) (h : k < 10) :
    (Nat.digitChar k).isDigit = true ∧ digitVal (Nat.digitChar k) = k := by
  interval_cases k <;> exact ⟨rfl, rfl⟩

theorem isMmSs_twoDigits (m s : Nat) (hm : m < 100) (hs : s < 60) :
    isMmSs (specTwoDigits m ++ ":" ++ specTwoDigits s) = true := by
  unfold isMmSs
  have hdata : (specTwoDigits m ++ ":" ++ specTwoDigits s).data
      = [Nat.digitChar (m / 10), Nat.digitChar (m % 10), ':',
         Nat.digitChar (s / 10), Nat.digitChar (s % 10)] := by
    rw [String.data_append, String.data_append, specTwoDigits_data m hm,
      specTwoDigits_data s (by omega)]
    rfl
  rw [hdata]
  obtain ⟨a1, _⟩ := digitChar_isDigit (m / 10) (by omega)
  obtain ⟨b1, _⟩ := digitChar_isDigit (m % 10) (by omega)
  obtain ⟨d1, d2⟩ := digitChar_isDigit (s / 10) (by omega)
  obtain ⟨e1, e2⟩ := digitChar_isDigit (s % 10) (by omega)
  have hlt : digitVal (Nat.digitChar (s / 10)) * 10 + digitVal (Nat.digitChar (s % 10)) < 60 := by
    rw [d2, e2]; omega
  simp [a1, b1, d1, e1, hlt]

theorem matchTimer_cases (startedAt : Option Int) (now : Int)
    (hv : ∀ st, startedAt = some st → st ≠ 0 →
      validTime (st * 1000) = true ∧ validTime now = true) :
    MatchTimer startedAt now = "00:00"
    ∨ ∃ st : Int, startedAt = some st ∧ st ≠ 0 ∧ st * 1000 ≤ now
        ∧ 0 ≤ diffSeconds st now
        ∧ MatchTimer startedAt now = specRender (diffSeconds st now).toNat := by
  cases startedAt with
  | none => exact Or.inl rfl
  | some st =>
    by_cases hs : st = 0
    · left
      unfold MatchTimer
      simp only [hs, if_true]
    · obtain ⟨h1, h2⟩ := hv st rfl hs
      by_cases hd : st * 1000 ≤ now
      · right
        have h0 := (diffSeconds_neg st now).2 hd
        refine ⟨st, rfl, hs, hd, h0, ?_⟩
        apply matchTimer_of_elapsed st now _ hs h1 h2
        rw [Int.toNat_of_nonneg h0]
      · left
        exact matchTimer_before_start st now h1 h2 (by omega)

theorem fetchDataComplete_timer_success (o : FetchOutcome) (s : Dashboard)
    (h : fetchSucceeded o s = true) : (fetchDataComplete o s).1.timer = 30 := by
  obtain ⟨r, ev, hr, hev, hok⟩ := (fetchSucceeded_iff _ _).mp h
  subst hr
  obtain ⟨tourney, images, act, comp, cd, h1, h2, h3, h4, h5, _⟩ := processEvent_ok ev s hok
  rw [fetchDataComplete_eq, tryBlock_json, hev]
  simp only [processEvent_success ev tourney images act comp cd h1 h2 h3 h4 h5 s]

theorem fetchDataComplete_timer (o : FetchOutcome) (s : Dashboard) :
    (fetchDataComplete o s).1.timer = 30 ∨ (fetchDataComplete o s).1.timer = s.timer := by
  cases h : fetchSucceeded o s with
  | true => exact Or.inl (fetchDataComplete_timer_success o s h)
  | false =>
    right
    rw [fetchDataComplete_eq]
    exact (tryBlock_failed o s h).2.2

theorem run_append_single (es : List Event) (e : Event) :
    run (es ++ [e]) = step (run es) e := by
  unfold run
  rw [List.foldl_append]
  rfl

theorem step_timer_bounds (a : AppState) (e : Event)
    (h : 0 ≤ a.dash.timer ∧ a.dash.timer ≤ 30) :
    0 ≤ (step a e).dash.timer ∧ (step a e).dash.timer ≤ 30 := by
  cases e with
  | cadence => exact h
  | countdown =>
    show 0 ≤ (if a.dash.timer > 0 then a.dash.timer - 1 else 0)
      ∧ (if a.dash.timer > 0 then a.dash.timer - 1 else 0) ≤ 30
    split <;> omega
  | flap => exact h
  | click =>
    unfold step
    by_cases hl : a.dash.loading = true
    · simp only [hl, if_true]; exact h
    · have hl2 : a.dash.loading = false := by simpa using hl
      simp only [hl2, Bool.false_eq_true, if_false]
      show (0 : Int) ≤ 30 ∧ (30 : Int) ≤ 30
      exact ⟨by decide, by decide⟩
  | settle o =>
    unfold step
    by_cases hi : a.inFlight = 0
    · simp only [hi, if_true]; exact h
    · simp only [hi, if_false]
      rcases fetchDataComplete_timer o a.dash with h2 | h2
      · rw [h2]; exact ⟨by decide, by decide⟩
      · rw [h2]; exact h

theorem run_timer_bounds (es : List Event) :
    0 ≤ (run es).dash.timer ∧ (run es).dash.timer ≤ 30 := by
  induction es using List.reverseRecOn with
  | nil => exact ⟨by decide, by decide⟩
  | append_singleton l e ih =>
    rw [run_append_single]
    exact step_timer_bounds (run l) e ih

theorem splitChars_not_mem (sep : Char) (l : List Char) (h : sep ∉ l) :
    splitChars sep l = [l] := by
  induction l with
  | nil => rfl
  | cons c t ih =>
    have hc : ¬ (c = sep) := fun e => h (by rw [e]; exact List.mem_cons_self _ _)
    have ht : sep ∉ t := fun e => h (List.mem_cons_of_mem _ e)
    rw [splitChars, if_neg hc, ih ht]

theorem splitChars_append_sep (sep : Char) (suf : List Char) (h : sep ∉ suf) :
    ∀ pre : List Char, ∃ init, init ≠ [] ∧ splitChars sep (pre ++ sep :: suf) = init ++ [suf] := by
  intro pre
  induction pre with
  | nil =>
    refine ⟨[[]], by simp, ?_⟩
    rw [List.nil_append, splitChars, if_pos rfl, splitChars_not_mem sep suf h]
    rfl
  | cons c p ih =>
    obtain ⟨init, hne, hsplit⟩ := ih
    by_cases hc : c = sep
    · refine ⟨[] :: init, by simp, ?_⟩
      rw [List.cons_append, splitChars, if_pos hc, hsplit]
      rfl
    · cases init with
      | nil => exact absurd rfl hne
      | cons seg rest =>
        refine ⟨(c :: seg) :: rest, by simp, ?_⟩
        rw [List.cons_append, splitChars, if_neg hc, hsplit]
        rfl

theorem last_occurrence (sep : Char) (l : List Char) (h : sep ∈ l) :
    ∃ pre suf, l = pre ++ sep :: suf ∧ sep ∉ suf := by
  induction l with
  | nil => cases h
  | cons c t ih =>
    by_cases ht : sep ∈ t
    · obtain ⟨pre, suf, h1, h2⟩ := ih ht
      exact ⟨c :: pre, suf, by rw [h1]; rfl, h2⟩
    · rcases List.mem_cons.mp h with h1 | h1
      · exact ⟨[], t, by rw [h1]; rfl, ht⟩
      · exact absurd h1 ht

theorem shortId_no_underscore (pid : JSVal) (h : '_' ∉ pid.toStr.data) :
    shortId pid = pid.toStr := by
  unfold shortId jsSplit
  rw [splitChars_not_mem '_' _ h]
  show (if (String.mk pid.toStr.data) ≠ "" then String.mk pid.toStr.data else pid.toStr) = _
  split <;> rfl

theorem shortId_after_last (pid : JSVal) (pre suf : List Char)
    (h : pid.toStr.data = pre ++ '_' :: suf) (hs : '_' ∉ suf) :
    shortId pid = if suf = [] then pid.toStr else String.mk suf := by
  obtain ⟨init, _, hsplit⟩ := splitChars_append_sep '_' suf hs pre
  unfold shortId jsSplit
  rw [h, hsplit, List.map_append, List.map_singleton, List.getLast?_concat]
  by_cases he : suf = []
  · subst he
    simp
  · have hne : String.mk suf ≠ "" := by
      intro e
      exact he (congrArg String.data e)
    simp [he, hne]

theorem int_toString_ne_empty (n : Int) : toString n ≠ "" := by
  intro h
  have hlen := congrArg String.length h
  cases n with
  | ofNat m =>
    have h1 : 1 ≤ (toString m).length := by
      show 1 ≤ (Nat.repr m).length
      simp only [Nat.repr, Nat.toDigits, String.length, List.asString]
      exact toDigitsCore_length_pos (m + 1) m (by omega)
    have h2 : (toString (Int.ofNat m)).length = (toString m).length := rfl
    rw [h2] at hlen
    have h3 : ("" : String).length = 0 := rfl
    omega
  | negSucc m =>
    have h2 : toString (Int.negSucc m) = "-" ++ toString (m + 1) := rfl
    rw [h2, String.length_append] at hlen
    have h3 : ("" : String).length = 0 := rfl
    have h4 : ("-" : String).length = 1 := rfl
    omega

theorem toStr_ne_empty (pid : JSVal) (h : pid.truthy = true) : pid.toStr ≠ "" := by
  cases pid with
  | undefined => cases h
  | null => cases h
  | bool b =>
    cases b with
    | true => decide
    | false => cases h
  | num n => exact int_toString_ne_empty n
  | str s =>
    simpa [JSVal.truthy] using h

theorem shortId_suffix (pid : JSVal) (h : pid.truthy = true) :
    (shortId pid).data <:+ pid.toStr.data ∧ shortId pid ≠ ""
      ∧ (shortId pid).length ≤ pid.toStr.length := by
  have hid := toStr_ne_empty pid h
  by_cases hu : '_' ∈ pid.toStr.data
  · obtain ⟨pre, suf, h1, h2⟩ := last_occurrence '_' _ hu
    rw [shortId_after_last pid pre suf h1 h2]
    by_cases he : suf = []
    · rw [if_pos he]
      exact ⟨List.suffix_refl _, hid, le_refl _⟩
    · rw [if_neg he]
      refine ⟨?_, ?_, ?_⟩
      · show suf <:+ pid.toStr.data
        rw [h1]
        exact ⟨pre ++ ['_'], by simp⟩
      · intro e
        exact he (congrArg String.data e)
      · show suf.length ≤ pid.toStr.data.length
        rw [h1]
        simp only [List.length_append, List.length_cons]
        omega
  · rw [shortId_no_underscore pid hu]
    exact ⟨List.suffix_refl _, hid, le_refl _⟩

theorem resolveSlotInfo_fallback (setMap : SetMap) (slot : Slot)
    (hE : slot.entrant = none) (hT : slot.prereqId.truthy = true)
    (hU : setMap.has slot.prereqId.toStr = false ∨
      ∃ pSet ss, setMap.get slot.prereqId.toStr = some pSet ∧ pSet.slots = some ss ∧
        ((slotEntrantName ss 0).truthy = false ∨ (slotEntrantName ss 1).truthy = false)) :
    resolveSlotInfo setMap slot
      = .ok { text := .str ((if slot.prereqPlacement = .num 1 then "W" else "L")
                        ++ ". of Set " ++ shortId slot.prereqId),
              isKnown := false, isDeepKnown := false } := by
  unfold resolveSlotInfo
  rcases hU with hAbs | ⟨pSet, ss, hGet, hS, hN⟩
  · simp [hE, hT, hAbs]
  · have hHas : setMap.has slot.prereqId.toStr = true := by
      rw [SetMap.has_eq_isSome_get, hGet]; rfl
    have hAnd : ((slotEntrantName ss 0).truthy && (slotEntrantName ss 1).truthy) = false := by
      rcases hN with h | h <;> simp [h]
    simp [hE, hT, hHas, hGet, hS, hAnd]

theorem resolveSlotInfo_shapes (setMap : SetMap) (slot : Slot) (info : ResolvedSlotInfo)
    (hE : slot.entrant = none) (hT : slot.prereqId.truthy = true)
    (h : resolveSlotInfo setMap slot = .ok info) :
    (∃ A B : String, A ≠ "" ∧ B ≠ "" ∧ info
        = { text := .str ((if slot.prereqPlacement = .num 1 then "Winner" else "Loser")
                      ++ " of " ++ A ++ " vs " ++ B),
            isKnown := false, isDeepKnown := true })
    ∨ info = { text := .str ((if slot.prereqPlacement = .num 1 then "W" else "L")
                      ++ ". of Set " ++ shortId slot.prereqId),
               isKnown := false, isDeepKnown := false } := by
  unfold resolveSlotInfo at h
  simp only [hE, hT, if_true] at h
  by_cases hH : setMap.has slot.prereqId.toStr = true
  · simp only [hH, if_true] at h
    cases hg : setMap.get slot.prereqId.toStr with
    | none => rw [hg] at h; cases h
    | some pSet =>
      cases hs : pSet.slots with
      | none => simp only [hg, hs] at h; cases h
      | some ss =>
        simp only [hg, hs] at h
        by_cases hn : ((slotEntrantName ss 0).truthy && (slotEntrantName ss 1).truthy) = true
        · simp only [hn, if_true] at h
          injection h with h
          left
          have h0 : (slotEntrantName ss 0).truthy = true := by
            cases h1 : (slotEntrantName ss 0).truthy <;> simp [h1] at hn ⊢
          have h1 : (slotEntrantName ss 1).truthy = true := by
            cases h2 : (slotEntrantName ss 1).truthy <;> simp [h2] at hn ⊢
          exact ⟨_, _, toStr_ne_empty _ h0, toStr_ne_empty _ h1, h.symm⟩
        · simp only [hn] at h
          injection h with h
          exact Or.inr h.symm
  · simp only [hH] at h
    injection h with h
    exact Or.inr h.symm

theorem cleanData_index (setMap : SetMap) (activeNodes : List SetNode) :
    ∀ (ms : List DisplayMatch), cleanData setMap activeNodes = .ok ms →
      ms.length = activeNodes.length
      ∧ ∀ (k : Nat) (n : SetNode), activeNodes.get? k = some n →
          ∃ m, ms.get? k = some m ∧ displayMatch setMap n = .ok m := by
  induction activeNodes with
  | nil =>
    intro ms h
    rw [cleanData_nil_ok] at h
    subst h
    exact ⟨rfl, fun k n hk => by cases hk⟩
  | cons a ns ih =>
    intro ms h
    rw [cleanData_cons_ok] at h
    obtain ⟨d, ds, hd, hds, rfl⟩ := h
    obtain ⟨hlen, hidx⟩ := ih ds hds
    refine ⟨by simp [hlen], fun k n hk => ?_⟩
    cases k with
    | zero =>
      have hn : a = n := by simpa using hk
      subst hn
      exact ⟨d, rfl, hd⟩
    | succ j =>
      have hj : ns.get? j = some n := by simpa using hk
      obtain ⟨m, hm, hdm⟩ := hidx j n hj
      exact ⟨m, by simpa using hm, hdm⟩

theorem tbd_ne_fallback (T S : String) : "TBD" ≠ T ++ ". of Set " ++ S := by
  intro h
  have h2 := congrArg String.length h
  simp only [String.length_append] at h2
  have h3 : ". of Set ".length = 9 := by decide
  have h4 : "TBD".length = 3 := by decide
  omega

theorem digitChar_facts (k : Nat) (h : k < 10) :
    digitOf 10 (Nat.digitChar k) = some k ∧ (Nat.digitChar k).toNat - 48 = k
      ∧ isStrWhiteSpace (Nat.digitChar k) = false
      ∧ Nat.digitChar k ≠ '-' ∧ Nat.digitChar k ≠ '+' ∧ Nat.digitChar k ≠ 'x'
      ∧ Nat.digitChar k ≠ 'X' := by
  interval_cases k <;> decide

theorem parseDigits_digits (l : List Char) :
    ∀ acc : Option Nat, (∀ c ∈ l, ∃ k, k < 10 ∧ c = Nat.digitChar k) →
      parseDigits 10 l acc = if l = [] then acc else some (digitsFold (acc.getD 0) l) := by
  induction l with
  | nil => intro acc _; rfl
  | cons c t ih =>
    intro acc h
    obtain ⟨k, hk, hc⟩ := h c (List.mem_cons_self _ _)
    obtain ⟨h1, h2, _⟩ := digitChar_facts k hk
    have ht : ∀ c2 ∈ t, ∃ k, k < 10 ∧ c2 = Nat.digitChar k :=
      fun c2 hc2 => h c2 (List.mem_cons_of_mem _ hc2)
    rw [parseDigits, hc, h1]
    simp only [List.cons_ne_nil, if_false]
    rw [ih _ ht]
    by_cases hnil : t = []
    · subst hnil
      simp [digitsFold, h2]
    · simp [hnil, digitsFold, h2]

theorem toDigitsCore_digits (fuel : Nat) :
    ∀ (n : Nat) (ds : List Char), ∀ c ∈ Nat.toDigitsCore 10 fuel n ds,
      (∃ k, k < 10 ∧ c = Nat.digitChar k) ∨ c ∈ ds := by
  induction fuel with
  | zero => intro n ds c hc; exact Or.inr hc
  | succ f ih =>
    intro n ds c hc
    simp only [Nat.toDigitsCore] at hc
    split at hc
    · rcases List.mem_cons.mp hc with h | h
      · exact Or.inl ⟨n % 10, Nat.mod_lt _ (by decide), h⟩
      · exact Or.inr h
    · rcases ih _ _ c hc with h | h
      · exact Or.inl h
      · rcases List.mem_cons.mp h with h2 | h2
        · exact Or.inl ⟨n % 10, Nat.mod_lt _ (by decide), h2⟩
        · exact Or.inr h2

theorem toDigitsCore_fold (fuel : Nat) :
    ∀ (n : Nat) (ds : List Char), n < fuel →
      digitsFold 0 (Nat.toDigitsCore 10 fuel n ds) = digitsFold n ds := by
  induction fuel with
  | zero => intro n ds h; omega
  | succ f ih =>
    intro n ds h
    simp only [Nat.toDigitsCore]
    have hd := (digitChar_facts (n % 10) (Nat.mod_lt _ (by decide))).2.1
    split
    · rename_i h0
      have hn : n % 10 = n := by omega
      simp only [digitsFold, List.foldl_cons, hd]
      rw [hn]; simp
    · rename_i h0
      rw [ih (n / 10) _ (by omega)]
      simp only [digitsFold, List.foldl_cons, hd]
      have : n / 10 * 10 + n % 10 = n := by omega
      rw [this]

theorem toDigits_facts (n : Nat) :
    (∀ c ∈ Nat.toDigits 10 n, ∃ k, k < 10 ∧ c = Nat.digitChar k)
    ∧ Nat.toDigits 10 n ≠ []
    ∧ digitsFold 0 (Nat.toDigits 10 n) = n := by
  refine ⟨?_, ?_, ?_⟩
  · intro c hc
    rcases toDigitsCore_digits (n + 1) n [] c hc with h | h
    · exact h
    · cases h
  · intro h
    have := toDigitsCore_length_pos (n + 1) n (by omega)
    unfold Nat.toDigits at h
    rw [h] at this
    simp at this
  · have := toDigitsCore_fold (n + 1) n [] (by omega)
    simpa [digitsFold] using this

theorem parseInt_of_digits (c : Char) (t : List Char) (k : Nat) (hk : k < 10)
    (hc : c = Nat.digitChar k) (ht : ∀ c2 ∈ t, ∃ k2, k2 < 10 ∧ c2 = Nat.digitChar k2) :
    parseInt (String.mk (c :: t)) = (parseDigits 10 (c :: t) none).map (fun n => (1 : Int) * n)
    ∧ parseInt (String.mk ('-' :: c :: t))
        = (parseDigits 10 (c :: t) none).map (fun n => (-1 : Int) * n) := by
  subst hc
  cases t with
  | nil => interval_cases k <;> exact ⟨rfl, rfl⟩
  | cons c2 t2 =>
    obtain ⟨k2, hk2, hc2⟩ := ht c2 (List.mem_cons_self _ _)
    subst hc2
    interval_cases k <;> interval_cases k2 <;> exact ⟨rfl, rfl⟩

theorem parseInt_toString (n : Int) : parseInt (toString n) = some n := by
  cases n with
  | ofNat m =>
    obtain ⟨hall, hne, hfold⟩ := toDigits_facts m
    have hs : toString (Int.ofNat m) = String.mk (Nat.toDigits 10 m) := rfl
    rw [hs]
    cases hl : Nat.toDigits 10 m with
    | nil => exact absurd hl hne
    | cons c t =>
      rw [hl] at hall hfold
      obtain ⟨k, hk, hc⟩ := hall c (List.mem_cons_self _ _)
      rw [(parseInt_of_digits c t k hk hc (fun c2 h2 => hall c2 (List.mem_cons_of_mem _ h2))).1,
        parseDigits_digits (c :: t) none hall]
      simp only [List.cons_ne_nil, if_false, Option.map_some', Option.getD_none, hfold]
      simp
  | negSucc m =>
    obtain ⟨hall, hne, hfold⟩ := toDigits_facts (m + 1)
    have hs : toString (Int.negSucc m) = String.mk ('-' :: Nat.toDigits 10 (m + 1)) := rfl
    rw [hs]
    cases hl : Nat.toDigits 10 (m + 1) with
    | nil => exact absurd hl hne
    | cons c t =>
      rw [hl] at hall hfold
      obtain ⟨k, hk, hc⟩ := hall c (List.mem_cons_self _ _)
      rw [(parseInt_of_digits c t k hk hc (fun c2 h2 => hall c2 (List.mem_cons_of_mem _ h2))).2,
        parseDigits_digits (c :: t) none hall]
      simp only [List.cons_ne_nil, if_false, Option.map_some', Option.getD_none, hfold]
      rw [Int.negSucc_eq]
      simp

theorem mathMax_some (xs : List (Option Int)) :
    ∀ (x : Option Int) (M : Int), mathMax x xs = some M →
      ∀ y ∈ x :: xs, ∃ v, y = some v ∧ v ≤ M := by
  induction xs with
  | nil =>
    intro x M h y hy
    have hx : x = some M := h
    rcases List.mem_cons.mp hy with h1 | h1
    · exact ⟨M, by rw [h1, hx], le_refl _⟩
    · cases h1
  | cons z zs ih =>
    intro x M h y hy
    have hstep : mathMax x (z :: zs) = mathMax (maxNaN x z) zs := rfl
    rw [hstep] at h
    cases x with
    | none =>
      have h0 := ih none M h none (List.mem_cons_self _ _)
      obtain ⟨v, hv, _⟩ := h0
      cases hv
    | some a =>
      cases z with
      | none =>
        have h0 := ih none M h none (List.mem_cons_self _ _)
        obtain ⟨v, hv, _⟩ := h0
        cases hv
      | some b =>
        have hall := ih (some (max a b)) M h
        obtain ⟨v, hv, hle⟩ := hall (some (max a b)) (List.mem_cons_self _ _)
        injection hv with hv
        rcases List.mem_cons.mp hy with h1 | h1
        · exact ⟨a, h1, by have := le_max_left a b; omega⟩
        · rcases List.mem_cons.mp h1 with h2 | h2
          · exact ⟨b, h2, by have := le_max_right a b; omega⟩
          · exact hall y (List.mem_cons_of_mem _ h2)

theorem mathMax_none (xs : List (Option Int)) :
    ∀ x : Option Int, mathMax x xs = none → ∃ y ∈ x :: xs, y = none := by
  induction xs with
  | nil =>
    intro x h
    exact ⟨x, List.mem_cons_self _ _, h⟩
  | cons z zs ih =>
    intro x h
    have hstep : mathMax x (z :: zs) = mathMax (maxNaN x z) zs := rfl
    rw [hstep] at h
    cases x with
    | none => exact ⟨none, List.mem_cons_self _ _, rfl⟩
    | some a =>
      cases z with
      | none => exact ⟨none, List.mem_cons_of_mem _ (List.mem_cons_self _ _), rfl⟩
      | some b =>
        obtain ⟨y, hy, hn⟩ := ih (some (max a b)) h
        rcases List.mem_cons.mp hy with h1 | h1
        · rw [h1] at hn; cases hn
        · exact ⟨y, List.mem_cons_of_mem _ (List.mem_cons_of_mem _ h1), hn⟩

/-- When every identifier parses to a safe integer (at most 9007199254740991
in absolute value, the range in which `parseInt`, `Math.max` and `+ 1` are
exact), the identifier that `addStation` appends is new. -/
theorem addStation_fresh_of_numeric (config : MapConfig)
    (hnum : ∀ s ∈ config.stations, parseInt s.id ≠ none)
    (_hsafe : ∀ s ∈ config.stations, ∀ n : Int, parseInt s.id = some n →
      -9007199254740991 ≤ n ∧ n ≤ 9007199254740991) :
    numToStr (nextId config) ∉ stationIds config
    ∧ ((stationIds config).Nodup → (stationIds (addStation config)).Nodup) := by
  have hfresh : numToStr (nextId config) ∉ stationIds config := by
    intro hmem
    unfold stationIds at hmem
    obtain ⟨st, hst, hid⟩ := List.mem_map.mp hmem
    unfold nextId at hid
    cases hl : config.stations.map (fun s => parseInt s.id) with
    | nil =>
      have : config.stations = [] := List.map_eq_nil_iff.mp hl
      rw [this] at hst
      cases hst
    | cons x xs =>
      rw [hl] at hid
      have hin : parseInt st.id ∈ x :: xs := by
        rw [← hl]
        exact List.mem_map.mpr ⟨st, hst, rfl⟩
      cases hM : mathMax x xs with
      | none =>
        obtain ⟨y, hy, hyn⟩ := mathMax_none xs x hM
        rw [← hl] at hy
        obtain ⟨s2, hs2, hp⟩ := List.mem_map.mp hy
        exact hnum s2 hs2 (by rw [hp, hyn])
      | some M =>
        have hid2 : st.id = numToStr (Option.map (fun n => n + 1) (mathMax x xs)) := hid
        rw [hM] at hid2
        have hid3 : st.id = toString (M + 1) := hid2
        obtain ⟨v, hv, hle⟩ := mathMax_some xs x M hM _ hin
        have hp : parseInt st.id = some (M + 1) := by
          rw [hid3]
          exact parseInt_toString (M + 1)
        rw [hp] at hv
        injection hv with hv
        omega
  refine ⟨hfresh, fun hnd => ?_⟩
  have hids : stationIds (addStation config)
      = stationIds config ++ [numToStr (nextId config)] := by
    unfold stationIds addStation
    simp
  rw [hids]
  exact List.Nodup.append hnd (List.nodup_singleton _)
    (by
      intro a ha hb
      rw [List.mem_singleton] at hb
      rw [hb] at ha
      exact hfresh ha)

theorem step_serialized (a : AppState) (e : Event)
    (hI : a.inFlight ≤ 1 ∧ (a.dash.loading = true ↔ a.inFlight = 1))
    (hc : e = .cadence → a.inFlight = 0) :
    (step a e).inFlight ≤ 1 ∧ ((step a e).dash.loading = true ↔ (step a e).inFlight = 1) := by
  obtain ⟨h1, h2⟩ := hI
  cases e with
  | cadence =>
    have h0 := hc rfl
    show a.inFlight + 1 ≤ 1 ∧ (true = true ↔ a.inFlight + 1 = 1)
    rw [h0]
    exact ⟨le_refl _, ⟨fun _ => rfl, fun _ => rfl⟩⟩
  | countdown => exact ⟨h1, h2⟩
  | flap => exact ⟨h1, h2⟩
  | click =>
    by_cases hl : a.dash.loading = true
    · have hs : step a .click = a := by
        unfold step
        simp [hl]
      rw [hs]
      exact ⟨h1, h2⟩
    · have hs : step a .click = handleManualRefresh a := by
        unfold step
        simp [hl]
      rw [hs]
      have h0 : a.inFlight = 0 := by
        have h3 : ¬ a.inFlight = 1 := fun h => hl (h2.2 h)
        omega
      show a.inFlight + 1 ≤ 1 ∧ (true = true ↔ a.inFlight + 1 = 1)
      rw [h0]
      exact ⟨le_refl _, ⟨fun _ => rfl, fun _ => rfl⟩⟩
  | settle o =>
    by_cases h0 : a.inFlight = 0
    · have hs : step a (.settle o) = a := by
        unfold step
        simp [h0]
      rw [hs]
      exact ⟨h1, h2⟩
    · have hs : step a (.settle o)
          = { dash := (fetchDataComplete o a.dash).1, inFlight := a.inFlight - 1 } := by
        unfold step
        simp [h0]
      rw [hs, fetchDataComplete_eq]
      have h3 : a.inFlight = 1 := by omega
      show a.inFlight - 1 ≤ 1 ∧ (false = true ↔ a.inFlight - 1 = 1)
      rw [h3]
      exact ⟨by decide, ⟨fun h => (by cases h), fun h => (by cases h)⟩⟩

theorem cadenceFindsIdle_cons (a : AppState) (e : Event) (es : List Event) :
    cadenceFindsIdle a (e :: es)
      = ((match e with
          | .cadence => decide (a.inFlight = 0)
          | _ => true)
        && cadenceFindsIdle (step a e) es) := by
  cases e <;> rfl

theorem foldl_step_serialized (es : List Event) :
    ∀ a : AppState, (a.inFlight ≤ 1 ∧ (a.dash.loading = true ↔ a.inFlight = 1)) →
      cadenceFindsIdle a es = true →
      (es.foldl step a).inFlight ≤ 1
      ∧ ((es.foldl step a).dash.loading = true ↔ (es.foldl step a).inFlight = 1) := by
  induction es with
  | nil => intro a hI _; exact hI
  | cons e es ih =>
    intro a hI hc
    rw [cadenceFindsIdle_cons, Bool.and_eq_true] at hc
    rw [List.foldl_cons]
    apply ih (step a e) _ hc.2
    apply step_serialized a e hI
    intro he
    subst he
    exact of_decide_eq_true hc.1

theorem cadenceFindsIdle_of_no_cadence (es : List Event) :
    ∀ a : AppState, (∀ e ∈ es, e ≠ Event.cadence) → cadenceFindsIdle a es = true := by
  induction es with
  | nil => intro a _; rfl
  | cons e es ih =>
    intro a h
    rw [cadenceFindsIdle_cons, Bool.and_eq_true]
    refine ⟨?_, ih (step a e) (fun x hx => h x (List.mem_cons_of_mem _ hx))⟩
    have he := h e (List.mem_cons_self _ _)
    cases e with
    | cadence => exact absurd rfl he
    | countdown => rfl
    | flap => rfl
    | click => rfl
    | settle o => rfl

theorem mounted_serialized :
    mounted.inFlight ≤ 1 ∧ (mounted.dash.loading = true ↔ mounted.inFlight = 1) :=
  ⟨le_refl _, ⟨fun _ => rfl, fun _ => rfl⟩⟩

/-! ## Theorems: slot resolution -/

/-- C1: a slot that carries an entrant resolves to exactly that entrant's name
with `isKnown = true` and `isDeepKnown = true`, for every index and whatever
prerequisite identifier and placement the slot also carries. -/
theorem resolveSlotInfo_entrant (setMap : SetMap) (slot : Slot) (e : Entrant)
    (h : slot.entrant = some e) :
    resolveSlotInfo setMap slot = .ok { text := e.name, isKnown := true, isDeepKnown := true } := by
  unfold resolveSlotInfo
  rw [h]

/-- Witness of C1: a named slot that also carries a resolvable prerequisite. -/
theorem resolveSlotInfo_entrant_witness :
    resolveSlotInfo sampleIndex
        { entrant := some { name := .str "Zed" }, prereqId := .str "10", prereqPlacement := .num 2 }
      = .ok { text := .str "Zed", isKnown := true, isDeepKnown := true } :=
  resolveSlotInfo_entrant sampleIndex
    { entrant := some { name := .str "Zed" }, prereqId := .str "10", prereqPlacement := .num 2 }
    { name := .str "Zed" } rfl

/-- C2, as stated, fails: a prerequisite entrant whose name is the empty string
is present but falsy, and a prerequisite identifier that is the number 0 is a
key of the index (as "0") but falsy; in both cases the derived label is not
produced. -/
theorem resolveSlotInfo_prereq_named_counterexample :
    ¬ (∀ (setMap : SetMap) (slot : Slot) (pSet : SetNode) (ss : List (Option Slot))
        (A B : String),
        slot.entrant = none →
        setMap.get slot.prereqId.toStr = some pSet →
        pSet.slots = some ss →
        slotEntrantName ss 0 = .str A →
        slotEntrantName ss 1 = .str B →
        slot.prereqPlacement = .num 1 →
        resolveSlotInfo setMap slot
          = .ok { text := .str ("Winner of " ++ A ++ " vs " ++ B),
                  isKnown := false, isDeepKnown := true })
    ∧ resolveSlotInfo emptyNameIndex (prereqSlot (.str "8") (.num 1))
        = .ok { text := .str "W. of Set 8", isKnown := false, isDeepKnown := false }
    ∧ resolveSlotInfo zeroIdIndex (prereqSlot (.num 0) (.num 1))
        = .ok { text := .str "TBD", isKnown := false, isDeepKnown := false } := by
  refine ⟨fun h => ?_, by decide, by decide⟩
  have h1 := h emptyNameIndex (prereqSlot (.str "8") (.num 1))
    (completedNode (.str "8") [some (namedSlot ""), some (namedSlot "Bob")])
    [some (namedSlot ""), some (namedSlot "Bob")] "" "Bob" rfl (by decide) rfl rfl rfl rfl
  revert h1
  decide

/-- C2 (amended): for a slot with no entrant whose prerequisite identifier is
truthy and a key of the index, and whose prerequisite set has the non-empty
entrant names `A` (slot 0) and `B` (slot 1), the result has `isKnown = false`,
`isDeepKnown = true` and the text "Winner of A vs B" for placement 1 and
"Loser of A vs B" for placement 2. -/
theorem resolveSlotInfo_prereq_named (setMap : SetMap) (slot : Slot) (pSet : SetNode)
    (ss : List (Option Slot)) (A B : String)
    (hE : slot.entrant = none) (hT : slot.prereqId.truthy = true)
    (hGet : setMap.get slot.prereqId.toStr = some pSet)
    (hS : pSet.slots = some ss)
    (hA : slotEntrantName ss 0 = .str A) (hB : slotEntrantName ss 1 = .str B)
    (hA0 : A ≠ "") (hB0 : B ≠ "") :
    (slot.prereqPlacement = .num 1 →
      resolveSlotInfo setMap slot
        = .ok { text := .str ("Winner of " ++ A ++ " vs " ++ B),
                isKnown := false, isDeepKnown := true })
    ∧ (slot.prereqPlacement = .num 2 →
      resolveSlotInfo setMap slot
        = .ok { text := .str ("Loser of " ++ A ++ " vs " ++ B),
                isKnown := false, isDeepKnown := true }) := by
  have hHas : setMap.has slot.prereqId.toStr = true := by
    rw [SetMap.has_eq_isSome_get, hGet]; rfl
  have hAt : (JSVal.str A).truthy = true := by simp [JSVal.truthy, hA0]
  have hBt : (JSVal.str B).truthy = true := by simp [JSVal.truthy, hB0]
  constructor
  · intro hP
    unfold resolveSlotInfo
    simp only [hE, hT, hHas, hGet, hS, hA, hB, hAt, hBt, hP, if_true, Bool.and_self,
      JSVal.toStr_str]
    rfl
  · intro hP
    unfold resolveSlotInfo
    simp only [hE, hT, hHas, hGet, hS, hA, hB, hAt, hBt, hP, if_true, Bool.and_self,
      JSVal.toStr_str]
    rfl

/-- Witness of C2 (amended): the winner and the loser of set "10". -/
theorem resolveSlotInfo_prereq_named_witness :
    resolveSlotInfo sampleIndex (prereqSlot (.str "10") (.num 1))
        = .ok { text := .str "Winner of Alice vs Bob", isKnown := false, isDeepKnown := true }
    ∧ resolveSlotInfo sampleIndex (prereqSlot (.str "10") (.num 2))
        = .ok { text := .str "Loser of Alice vs Bob", isKnown := false, isDeepKnown := true } :=
  ⟨(resolveSlotInfo_prereq_named sampleIndex (prereqSlot (.str "10") (.num 1))
      (completedNode (.str "10") [some (namedSlot "Alice"), some (namedSlot "Bob")])
      [some (namedSlot "Alice"), some (namedSlot "Bob")] "Alice" "Bob"
      rfl (by decide) (by decide) rfl rfl rfl (by decide) (by decide)).1 rfl,
   (resolveSlotInfo_prereq_named sampleIndex (prereqSlot (.str "10") (.num 2))
      (completedNode (.str "10") [some (namedSlot "Alice"), some (namedSlot "Bob")])
      [some (namedSlot "Alice"), some (namedSlot "Bob")] "Alice" "Bob"
      rfl (by decide) (by decide) rfl rfl rfl (by decide) (by decide)).2 rfl⟩

/-- C3: a slot with no entrant whose prerequisite identifier (any scalar, in
particular a string or a number) is not a key of the index resolves without
raising, to `isKnown = false`, `isDeepKnown = false` and a non-empty text. -/
theorem resolveSlotInfo_prereq_absent (setMap : SetMap) (slot : Slot)
    (hE : slot.entrant = none) (hAbs : setMap.has slot.prereqId.toStr = false) :
    ∃ t : String, t ≠ "" ∧
      resolveSlotInfo setMap slot
        = .ok { text := .str t, isKnown := false, isDeepKnown := false } := by
  unfold resolveSlotInfo
  simp only [hE, hAbs]
  by_cases hT : slot.prereqId.truthy = true
  · exact ⟨(if slot.prereqPlacement = .num 1 then "W" else "L") ++ ". of Set "
        ++ shortId slot.prereqId, fallback_text_ne_empty _ _, by simp [hT]⟩
  · exact ⟨"TBD", by decide, by simp [hT]⟩

/-- Witness of C3: Scenario B, prerequisite "99" is in no index. -/
theorem resolveSlotInfo_prereq_absent_witness :
    ∃ t : String, t ≠ "" ∧
      resolveSlotInfo sampleIndex (prereqSlot (.str "99") .undefined)
        = .ok { text := .str t, isKnown := false, isDeepKnown := false } :=
  resolveSlotInfo_prereq_absent sampleIndex (prereqSlot (.str "99") .undefined) rfl (by decide)

/-- C4: a slot with neither an entrant nor a (truthy) prerequisite identifier
resolves to exactly `{text: "TBD", isKnown: false, isDeepKnown: false}`, for
every index. -/
theorem resolveSlotInfo_tbd (setMap : SetMap) (slot : Slot)
    (hE : slot.entrant = none) (hP : slot.prereqId.truthy = false) :
    resolveSlotInfo setMap slot
      = .ok { text := .str "TBD", isKnown := false, isDeepKnown := false } := by
  unfold resolveSlotInfo
  simp [hE, hP]

/-- Witness of C4: the slot `{entrant: null, prereqId: null}`. -/
theorem resolveSlotInfo_tbd_witness :
    resolveSlotInfo sampleIndex (prereqSlot .null .null)
      = .ok { text := .str "TBD", isKnown := false, isDeepKnown := false } :=
  resolveSlotInfo_tbd sampleIndex (prereqSlot .null .null) rfl rfl

/-- C5: resolution is one hop only.  For a slot with no entrant whose
prerequisite set is in the index with a slot array of which slot 0 or slot 1
has no (truthy) entrant name, the result is the fallback
(`isKnown = false`, `isDeepKnown = false`), whatever that unnamed slot points
to; with a truthy prerequisite identifier the text is the fallback label. -/
theorem resolveSlotInfo_one_hop (setMap : SetMap) (slot : Slot) (pSet : SetNode)
    (ss : List (Option Slot))
    (hE : slot.entrant = none)
    (hGet : setMap.get slot.prereqId.toStr = some pSet)
    (hS : pSet.slots = some ss)
    (hU : (slotEntrantName ss 0).truthy = false ∨ (slotEntrantName ss 1).truthy = false) :
    (∃ t : String, resolveSlotInfo setMap slot
        = .ok { text := .str t, isKnown := false, isDeepKnown := false })
    ∧ (slot.prereqId.truthy = true →
        resolveSlotInfo setMap slot
          = .ok { text := .str ((if slot.prereqPlacement = .num 1 then "W" else "L")
                            ++ ". of Set " ++ shortId slot.prereqId),
                  isKnown := false, isDeepKnown := false }) := by
  have hHas : setMap.has slot.prereqId.toStr = true := by
    rw [SetMap.has_eq_isSome_get, hGet]; rfl
  have hAnd : ((slotEntrantName ss 0).truthy && (slotEntrantName ss 1).truthy) = false := by
    rcases hU with h | h <;> simp [h]
  have key : slot.prereqId.truthy = true →
      resolveSlotInfo setMap slot
        = .ok { text := .str ((if slot.prereqPlacement = .num 1 then "W" else "L")
                          ++ ". of Set " ++ shortId slot.prereqId),
                isKnown := false, isDeepKnown := false } := by
    intro hT
    unfold resolveSlotInfo
    simp [hE, hT, hHas, hGet, hS, hAnd]
  refine ⟨?_, key⟩
  by_cases hT : slot.prereqId.truthy = true
  · exact ⟨_, key hT⟩
  · refine ⟨"TBD", ?_⟩
    unfold resolveSlotInfo
    simp [hE, hT]

/-- Witness of C5: the slot waits on set "9", whose second slot is unnamed and
waits on set "10", itself in the index with both slots named (Alice, Bob);
one more hop would name the matchup, the code reports the fallback. -/
theorem resolveSlotInfo_one_hop_witness :
    resolveSlotInfo sampleIndex (prereqSlot (.str "10") (.num 1))
        = .ok { text := .str "Winner of Alice vs Bob", isKnown := false, isDeepKnown := true }
    ∧ resolveSlotInfo sampleIndex (prereqSlot (.str "9") (.num 1))
        = .ok { text := .str "W. of Set 9", isKnown := false, isDeepKnown := false } :=
  ⟨by decide,
   (resolveSlotInfo_one_hop sampleIndex (prereqSlot (.str "9") (.num 1))
      (completedNode (.str "9") [some (namedSlot "Carol"), some (prereqSlot (.str "10") (.num 1))])
      [some (namedSlot "Carol"), some (prereqSlot (.str "10") (.num 1))]
      rfl (by decide) rfl (Or.inr rfl)).2 (by decide)⟩

/-! ## Theorems: the set index -/

/-- C6: the index built from `(completedNodes, activeNodes)` maps a key to an
active snapshot whenever some active set has that identifier (also when a
completed set has it too), otherwise to a completed snapshot whenever some
completed set has it, and has no entry otherwise; two empty lists give the
empty index. -/
theorem buildSetMap_lookup (completedNodes activeNodes : List SetNode) (k : String) :
    ((∃ s ∈ activeNodes, s.id.toStr = k) →
        ∃ s ∈ activeNodes, s.id.toStr = k ∧
          (buildSetMap completedNodes activeNodes).get k = some s)
    ∧ ((∀ s ∈ activeNodes, s.id.toStr ≠ k) → (∃ s ∈ completedNodes, s.id.toStr = k) →
        ∃ s ∈ completedNodes, s.id.toStr = k ∧
          (buildSetMap completedNodes activeNodes).get k = some s)
    ∧ ((∀ s ∈ activeNodes, s.id.toStr ≠ k) → (∀ s ∈ completedNodes, s.id.toStr ≠ k) →
        (buildSetMap completedNodes activeNodes).get k = none ∧
          (buildSetMap completedNodes activeNodes).has k = false)
    ∧ buildSetMap [] [] = [] := by
  have hget := buildSetMap_get completedNodes activeNodes k
  refine ⟨?_, ?_, ?_, rfl⟩
  · rintro ⟨s, hs, hk⟩
    cases hl : lastWithKey activeNodes k with
    | none => exact absurd hk ((lastWithKey_none activeNodes k).mp hl s hs)
    | some s2 =>
      obtain ⟨h1, h2⟩ := lastWithKey_some activeNodes k s2 hl
      rw [hl] at hget
      exact ⟨s2, h1, h2, hget⟩
  · rintro hA ⟨s, hs, hk⟩
    rw [(lastWithKey_none activeNodes k).mpr hA] at hget
    cases hl : lastWithKey completedNodes k with
    | none => exact absurd hk ((lastWithKey_none completedNodes k).mp hl s hs)
    | some s2 =>
      obtain ⟨h1, h2⟩ := lastWithKey_some completedNodes k s2 hl
      rw [hl] at hget
      exact ⟨s2, h1, h2, hget⟩
  · intro hA hC
    rw [(lastWithKey_none activeNodes k).mpr hA] at hget
    have hn : (buildSetMap completedNodes activeNodes).get k = none := by
      rw [hget]; exact (lastWithKey_none completedNodes k).mpr hC
    exact ⟨hn, by rw [SetMap.has_eq_isSome_get, hn]; rfl⟩

/-- Witness of C6: identifier 7 occurs in both lists (as the string "7" in the
completed list, as the number 7 in the active list); the key "7" resolves to
the active snapshot. -/
theorem buildSetMap_lookup_witness :
    ∃ s ∈ [activeNode (.num 7) 2 [some (namedSlot "Alice"), some (namedSlot "Bob")]],
      s.id.toStr = "7" ∧
      (buildSetMap
          [completedNode (.str "7") [some (namedSlot "Alice"), some (namedSlot "Bob")]]
          [activeNode (.num 7) 2 [some (namedSlot "Alice"), some (namedSlot "Bob")]]).get "7"
        = some s :=
  (buildSetMap_lookup
      [completedNode (.str "7") [some (namedSlot "Alice"), some (namedSlot "Bob")]]
      [activeNode (.num 7) 2 [some (namedSlot "Alice"), some (namedSlot "Bob")]] "7").1
    ⟨activeNode (.num 7) 2 [some (namedSlot "Alice"), some (namedSlot "Bob")],
      List.mem_singleton.mpr rfl, by decide⟩

/-! ## Theorems: classification -/

/-- C7: a display match is in the Called list iff its state is 6 and in the
Playing list iff its state is 2, with no condition on the flags of its slots;
a state-6 match is in neither the Playing list nor the upcoming list. -/
theorem called_playing_iff (ms : List DisplayMatch) (m : DisplayMatch) (hm : m ∈ ms) :
    (m ∈ called ms ↔ m.status = .num 6)
    ∧ (m ∈ playing ms ↔ m.status = .num 2)
    ∧ (m.status = .num 6 → m ∉ playing ms ∧ m ∉ upcomingFiltered ms) := by
  refine ⟨?_, ?_, ?_⟩
  · simp [called, List.mem_filter, hm]
  · simp [playing, List.mem_filter, hm]
  · intro h6
    constructor
    · simp [playing, List.mem_filter, h6]
    · simp [upcomingFiltered, List.mem_filter, isUpcoming, h6]

/-- Witness of C7: a state-6 match with two unknown slots is Called. -/
theorem called_playing_iff_witness :
    calledUnknown ∈ called [pendingKnown, calledUnknown, readyKnown]
    ∧ calledUnknown ∉ playing [pendingKnown, calledUnknown, readyKnown]
    ∧ calledUnknown ∉ upcomingFiltered [pendingKnown, calledUnknown, readyKnown] :=
  have h := called_playing_iff [pendingKnown, calledUnknown, readyKnown] calledUnknown
    (by decide)
  ⟨h.1.mpr rfl, (h.2.2 rfl).1, (h.2.2 rfl).2⟩

/-- C8: a display match is in the upcoming list iff its state is 1 or 5 and
both resolved slots are deep-known; so a state-1 or state-5 match with a slot
that is not deep-known, and every match whose state is none of 1, 2, 5, 6
(such as 3 or 4), is in none of the Called, Playing and upcoming lists. -/
theorem upcoming_iff (ms : List DisplayMatch) (m : DisplayMatch) (hm : m ∈ ms) :
    (m ∈ upcomingFiltered ms ↔
        (m.status = .num 1 ∨ m.status = .num 5)
          ∧ m.s1Info.isDeepKnown = true ∧ m.s2Info.isDeepKnown = true)
    ∧ ((m.status = .num 1 ∨ m.status = .num 5) →
        (m.s1Info.isDeepKnown = false ∨ m.s2Info.isDeepKnown = false) →
        m ∉ called ms ∧ m ∉ playing ms ∧ m ∉ upcomingFiltered ms)
    ∧ (m.status ≠ .num 1 → m.status ≠ .num 2 → m.status ≠ .num 5 → m.status ≠ .num 6 →
        m ∉ called ms ∧ m ∉ playing ms ∧ m ∉ upcomingFiltered ms) := by
  have hup : m ∈ upcomingFiltered ms ↔
      (m.status = .num 1 ∨ m.status = .num 5)
        ∧ m.s1Info.isDeepKnown = true ∧ m.s2Info.isDeepKnown = true := by
    simp only [upcomingFiltered, List.mem_filter, hm, true_and, isUpcoming]
    by_cases h1 : m.status = .num 1
    · simp [h1]
    · by_cases h5 : m.status = .num 5
      · simp [h5]
      · simp [h1, h5]
  refine ⟨hup, ?_, ?_⟩
  · intro hs hd
    refine ⟨?_, ?_, ?_⟩
    · rcases hs with h | h <;> simp [called, List.mem_filter, h]
    · rcases hs with h | h <;> simp [playing, List.mem_filter, h]
    · rw [hup]
      rintro ⟨_, h1, h2⟩
      rcases hd with h | h
      · rw [h] at h1; cases h1
      · rw [h] at h2; cases h2
  · intro h1 h2 h5 h6
    refine ⟨?_, ?_, ?_⟩
    · simp [called, List.mem_filter, h6]
    · simp [playing, List.mem_filter, h2]
    · rw [hup]
      rintro ⟨h, _, _⟩
      rcases h with h | h
      · exact h1 h
      · exact h5 h

/-- Witness of C8: a state-5 match with both slots deep-known is upcoming, and a
state-4 match with both slots known is in none of the three lists. -/
theorem upcoming_iff_witness :
    pendingKnown ∈ upcomingFiltered [pendingKnown, calledUnknown, readyKnown]
    ∧ (readyKnown ∉ called [pendingKnown, calledUnknown, readyKnown]
      ∧ readyKnown ∉ playing [pendingKnown, calledUnknown, readyKnown]
      ∧ readyKnown ∉ upcomingFiltered [pendingKnown, calledUnknown, readyKnown]) :=
  ⟨(upcoming_iff [pendingKnown, calledUnknown, readyKnown] pendingKnown (by decide)).1.mpr
      ⟨Or.inr rfl, rfl, rfl⟩,
   (upcoming_iff [pendingKnown, calledUnknown, readyKnown] readyKnown (by decide)).2.2
      (by decide) (by decide) (by decide) (by decide)⟩

/-- C9: the engine never re-sorts.  When the active sets are processed into the
display matches `ms`, each of the Called, Playing and upcoming lists is the
display of a subsequence of the active-set list, in the provider's order. -/
theorem buckets_keep_order (setMap : SetMap) (activeNodes : List SetNode)
    (ms : List DisplayMatch) (h : cleanData setMap activeNodes = .ok ms) :
    (∃ sub, sub.Sublist activeNodes ∧ cleanData setMap sub = .ok (called ms))
    ∧ (∃ sub, sub.Sublist activeNodes ∧ cleanData setMap sub = .ok (playing ms))
    ∧ (∃ sub, sub.Sublist activeNodes ∧ cleanData setMap sub = .ok (upcomingFiltered ms)) :=
  ⟨cleanData_sublist setMap activeNodes ms (called ms) h (List.filter_sublist ms),
   cleanData_sublist setMap activeNodes ms (playing ms) h (List.filter_sublist ms),
   cleanData_sublist setMap activeNodes ms (upcomingFiltered ms) h (List.filter_sublist ms)⟩

/-- Witness of C9: five active sets, of which the second and the fourth are
Playing; the Playing list holds them in that order. -/
theorem buckets_keep_order_witness :
    (∃ sub, sub.Sublist sampleActive ∧
        cleanData (buildSetMap [] sampleActive) sub
          = .ok (called sampleMatches))
    ∧ (∃ sub, sub.Sublist sampleActive ∧
        cleanData (buildSetMap [] sampleActive) sub
          = .ok (playing sampleMatches))
    ∧ (∃ sub, sub.Sublist sampleActive ∧
        cleanData (buildSetMap [] sampleActive) sub
          = .ok (upcomingFiltered sampleMatches)) :=
  buckets_keep_order (buildSetMap [] sampleActive) sampleActive sampleMatches (by decide)

/-! ## Theorems: station occupancy -/

/-- C10, as stated, fails: a Playing (or Called) set without a station puts the
element `null` into the playing-stations (called-stations) collection. -/
theorem stations_no_null_counterexample :
    cleanData (buildSetMap [] sampleActive) sampleActive = .ok sampleMatches
    ∧ playingStations sampleMatches = [.str "5", .null]
    ∧ calledStations sampleMatches = [.null]
    ∧ ¬ (∀ (setMap : SetMap) (activeNodes : List SetNode) (ms : List DisplayMatch),
          cleanData setMap activeNodes = .ok ms →
          (∀ v ∈ playingStations ms, v ≠ .null) ∧ (∀ v ∈ calledStations ms, v ≠ .null)) := by
  refine ⟨by decide, by decide, by decide, fun h => ?_⟩
  have h1 := (h (buildSetMap [] sampleActive) sampleActive sampleMatches (by decide)).1
    .null (by decide)
  exact h1 rfl

/-- C10 (amended): the playing-stations and called-stations collections hold
one element per Playing (Called) match; each element is `null` (a match whose
set has no station) or the string form of a station number; and a station
identifier string is included exactly when some Playing (Called) match has it
as its station, so a match without a station marks no station. -/
theorem stations_string_or_null (setMap : SetMap) (activeNodes : List SetNode)
    (ms : List DisplayMatch) (h : cleanData setMap activeNodes = .ok ms) :
    ((playingStations ms).length = (playing ms).length
      ∧ (calledStations ms).length = (called ms).length)
    ∧ (∀ v ∈ playingStations ms, v = .null ∨ ∃ s : String, v = .str s)
    ∧ (∀ v ∈ calledStations ms, v = .null ∨ ∃ s : String, v = .str s)
    ∧ (∀ s : String, includes (playingStations ms) (.str s) = true ↔
        ∃ m ∈ ms, m.status = .num 2 ∧ m.station = .str s)
    ∧ (∀ s : String, includes (calledStations ms) (.str s) = true ↔
        ∃ m ∈ ms, m.status = .num 6 ∧ m.station = .str s) := by
  have hst : ∀ m ∈ ms, m.station = .null ∨ ∃ s : String, m.station = .str s := by
    intro m hm
    obtain ⟨n, _, hd⟩ := cleanData_mem setMap activeNodes ms h m hm
    have h3 := (displayMatch_station setMap n m hd).2.2
    cases hn : n.station with
    | none => rw [hn] at h3; exact Or.inl h3
    | some st => rw [hn] at h3; exact Or.inr ⟨_, h3⟩
  refine ⟨⟨by simp [playingStations], by simp [calledStations]⟩, ?_, ?_, ?_, ?_⟩
  · intro v hv
    simp only [playingStations, playing, List.mem_map, List.mem_filter] at hv
    obtain ⟨m, ⟨hm, _⟩, rfl⟩ := hv
    exact hst m hm
  · intro v hv
    simp only [calledStations, called, List.mem_map, List.mem_filter] at hv
    obtain ⟨m, ⟨hm, _⟩, rfl⟩ := hv
    exact hst m hm
  · intro s
    rw [includes_iff]
    simp only [playingStations, playing, List.mem_map, List.mem_filter, decide_eq_true_eq]
    constructor
    · rintro ⟨m, ⟨hm, h2⟩, h3⟩; exact ⟨m, hm, h2, h3⟩
    · rintro ⟨m, hm, h2, h3⟩; exact ⟨m, ⟨hm, h2⟩, h3⟩
  · intro s
    rw [includes_iff]
    simp only [calledStations, called, List.mem_map, List.mem_filter, decide_eq_true_eq]
    constructor
    · rintro ⟨m, ⟨hm, h2⟩, h3⟩; exact ⟨m, hm, h2, h3⟩
    · rintro ⟨m, hm, h2, h3⟩; exact ⟨m, ⟨hm, h2⟩, h3⟩

/-- Witness of C10 (amended): station "5" is included in the playing stations,
station "6" is not, although a station-less Playing match is present. -/
theorem stations_string_or_null_witness :
    includes (playingStations sampleMatches) (.str "5") = true
    ∧ includes (playingStations sampleMatches) (.str "6") = false
    ∧ (playingStations sampleMatches).length = 2 :=
  have h := stations_string_or_null (buildSetMap [] sampleActive) sampleActive sampleMatches
    (by decide)
  ⟨(h.2.2.2.1 "5").mpr (by decide), by decide, h.1.1.trans (by decide)⟩

/-- C11: when the active sets are processed into the display matches `ms`, an
active set of state 2 with an assigned station of number `n` has its display
match in the Playing list, with the string form of `n` as station, and the
playing-stations collection contains that string; likewise a set of state 6
and the called-stations collection. -/
theorem station_of_playing_listed (setMap : SetMap) (activeNodes : List SetNode)
    (ms : List DisplayMatch) (n : SetNode) (st : Station)
    (h : cleanData setMap activeNodes = .ok ms) (hn : n ∈ activeNodes)
    (hst : n.station = some st) :
    (n.state = .num 2 →
      ∃ m ∈ playing ms, displayMatch setMap n = .ok m ∧ m.id = n.id
        ∧ m.station = .str st.number.toStr
        ∧ includes (playingStations ms) (.str st.number.toStr) = true)
    ∧ (n.state = .num 6 →
      ∃ m ∈ called ms, displayMatch setMap n = .ok m ∧ m.id = n.id
        ∧ m.station = .str st.number.toStr
        ∧ includes (calledStations ms) (.str st.number.toStr) = true) := by
  obtain ⟨m, hm, hd⟩ := cleanData_node setMap activeNodes ms h n hn
  obtain ⟨h1, h2, h3⟩ := displayMatch_station setMap n m hd
  rw [hst] at h3
  constructor
  · intro h2s
    have hp : m ∈ playing ms := by
      simp only [playing, List.mem_filter, decide_eq_true_eq]
      exact ⟨hm, by rw [h1, h2s]⟩
    refine ⟨m, hp, hd, h2, h3, ?_⟩
    rw [includes_iff]
    exact List.mem_map.mpr ⟨m, hp, h3⟩
  · intro h6s
    have hp : m ∈ called ms := by
      simp only [called, List.mem_filter, decide_eq_true_eq]
      exact ⟨hm, by rw [h1, h6s]⟩
    refine ⟨m, hp, hd, h2, h3, ?_⟩
    rw [includes_iff]
    exact List.mem_map.mpr ⟨m, hp, h3⟩

/-- Witness of C11: Scenario C, station `{number: "5"}` gives "5" in the
playing stations; the called set at station number 7 gives "7" in the called
stations. -/
theorem station_of_playing_listed_witness :
    includes (playingStations
        [knownMatch 50 "Alice" "Bob" (.str "5") 2, knownMatch 51 "Carol" "Dan" (.str "7") 6])
      (.str "5") = true
    ∧ includes (calledStations
        [knownMatch 50 "Alice" "Bob" (.str "5") 2, knownMatch 51 "Carol" "Dan" (.str "7") 6])
      (.str "7") = true :=
  ⟨((station_of_playing_listed (buildSetMap [] [scenarioC, calledAtSeven])
        [scenarioC, calledAtSeven]
        [knownMatch 50 "Alice" "Bob" (.str "5") 2, knownMatch 51 "Carol" "Dan" (.str "7") 6]
        scenarioC { id := .num 901, number := .str "5" } (by decide) (by decide) rfl).1 rfl).elim
      (fun _ hm => hm.2.2.2.2),
   ((station_of_playing_listed (buildSetMap [] [scenarioC, calledAtSeven])
        [scenarioC, calledAtSeven]
        [knownMatch 50 "Alice" "Bob" (.str "5") 2, knownMatch 51 "Carol" "Dan" (.str "7") 6]
        calledAtSeven { id := .num 902, number := .num 7 } (by decide) (by decide) rfl).2 rfl).elim
      (fun _ hm => hm.2.2.2.2)⟩

/-! ## Theorems: the cycle end to end -/

/-- C12, as stated, fails: with the empty entrant name in the first slot of
the completed set "10", the display match of set "11" gets the fallback label
and is not in the upcoming list. -/
theorem scenario_end_to_end_counterexample :
    cleanData (buildSetMap emptyNameCompleted scenarioAActive) scenarioAActive
      = .ok [{ id := .str "11", p1 := .str "W. of Set 10", p2 := .str "Carol",
               s1Info := { text := .str "W. of Set 10", isKnown := false, isDeepKnown := false },
               s2Info := { text := .str "Carol", isKnown := true, isDeepKnown := true },
               round := "Bracket: Round 1", station := .null, isStream := false,
               startedAt := .null, status := .num 5 }]
    ∧ (∀ ms, cleanData (buildSetMap emptyNameCompleted scenarioAActive) scenarioAActive = .ok ms →
        upcomingFiltered ms = []
        ∧ ∀ m ∈ ms, m.p1 ≠ .str ("Winner of " ++ "" ++ " vs " ++ "Bob")) := by
  refine ⟨by decide, fun ms h => ?_⟩
  have h0 : cleanData (buildSetMap emptyNameCompleted scenarioAActive) scenarioAActive
      = .ok [{ id := .str "11", p1 := .str "W. of Set 10", p2 := .str "Carol",
               s1Info := { text := .str "W. of Set 10", isKnown := false, isDeepKnown := false },
               s2Info := { text := .str "Carol", isKnown := true, isDeepKnown := true },
               round := "Bracket: Round 1", station := .null, isStream := false,
               startedAt := .null, status := .num 5 }] := by decide
  rw [h0] at h
  injection h with h
  subst h
  decide

/-- C12 (amended): end to end.  Let the completed set `c` be the only completed
set with its identifier, let that identifier be truthy and not an active one,
and let `c` have the non-empty entrant names `A` and `B`.  Let the active set
`a` have state 5, a first slot with no entrant, prerequisite identifier that of
`c` and placement 1, and a second slot holding the entrant `C`.  When the
processing of the active sets succeeds, the display match of `a` has
`p1 = "Winner of A vs B"`, `p2 = C` and is in the upcoming list. -/
theorem scenario_end_to_end (completedNodes activeNodes : List SetNode)
    (ms : List DisplayMatch) (c a : SetNode) (cs rest : List (Option Slot))
    (sl1 sl2 : Slot) (A B C : String)
    (hc : c ∈ completedNodes)
    (huniq : ∀ c2 ∈ completedNodes, c2.id.toStr = c.id.toStr → c2 = c)
    (hact : ∀ a2 ∈ activeNodes, a2.id.toStr ≠ c.id.toStr)
    (hid : c.id.truthy = true)
    (hcs : c.slots = some cs)
    (hA : slotEntrantName cs 0 = .str A) (hB : slotEntrantName cs 1 = .str B)
    (hA0 : A ≠ "") (hB0 : B ≠ "")
    (ha : a ∈ activeNodes) (hstate : a.state = .num 5)
    (hslots : a.slots = some (some sl1 :: some sl2 :: rest))
    (h1e : sl1.entrant = none) (h1p : sl1.prereqId = c.id)
    (h1w : sl1.prereqPlacement = .num 1)
    (h2e : sl2.entrant = some { name := .str C })
    (hok : cleanData (buildSetMap completedNodes activeNodes) activeNodes = .ok ms) :
    ∃ m ∈ ms, m.id = a.id ∧ m.p1 = .str ("Winner of " ++ A ++ " vs " ++ B)
      ∧ m.p2 = .str C ∧ m ∈ upcomingFiltered ms := by
  have hget : (buildSetMap completedNodes activeNodes).get sl1.prereqId.toStr = some c := by
    rw [h1p, buildSetMap_get, (lastWithKey_none activeNodes c.id.toStr).mpr hact]
    exact lastWithKey_unique completedNodes c hc huniq
  have hr1 := resolveSlotInfo_derived (buildSetMap completedNodes activeNodes) sl1 c cs A B
    h1e (by rw [h1p]; exact hid) hget hcs hA hB hA0 hB0
  rw [h1w, if_pos rfl] at hr1
  have hr2 : resolveSlotInfo (buildSetMap completedNodes activeNodes) sl2
      = .ok { text := .str C, isKnown := true, isDeepKnown := true } := by
    unfold resolveSlotInfo
    rw [h2e]
  obtain ⟨m, hm, hd⟩ := cleanData_node _ activeNodes ms hok a ha
  obtain ⟨s1, s2, e1, e2, hp1, hp2, hi1, hi2, hstat, hmid⟩ := displayMatch_ok _ a m hd
  have e1b : resolveNodeSlot (buildSetMap completedNodes activeNodes) a 0
      = resolveSlotInfo (buildSetMap completedNodes activeNodes) sl1 := by
    unfold resolveNodeSlot
    rw [hslots]
    rfl
  have e2b : resolveNodeSlot (buildSetMap completedNodes activeNodes) a 1
      = resolveSlotInfo (buildSetMap completedNodes activeNodes) sl2 := by
    unfold resolveNodeSlot
    rw [hslots]
    rfl
  rw [e1b, hr1] at e1
  rw [e2b, hr2] at e2
  injection e1 with e1
  injection e2 with e2
  subst e1
  subst e2
  refine ⟨m, hm, hmid, hp1, hp2, ?_⟩
  simp only [upcomingFiltered, List.mem_filter, isUpcoming]
  refine ⟨hm, ?_⟩
  rw [hstat, hstate, hi1, hi2]
  simp

/-- Witness of C12 (amended): Scenario A, completed set "10" (Alice, Bob) and
active set "11". -/
theorem scenario_end_to_end_witness :
    ∃ m ∈ [({ id := .str "11", p1 := .str "Winner of Alice vs Bob", p2 := .str "Carol",
              s1Info := { text := .str "Winner of Alice vs Bob", isKnown := false,
                          isDeepKnown := true },
              s2Info := { text := .str "Carol", isKnown := true, isDeepKnown := true },
              round := "Bracket: Round 1", station := .null, isStream := false,
              startedAt := .null, status := .num 5 } : DisplayMatch)],
      m.id = JSVal.str "11" ∧ m.p1 = .str ("Winner of " ++ "Alice" ++ " vs " ++ "Bob")
        ∧ m.p2 = .str "Carol"
        ∧ m ∈ upcomingFiltered
            [({ id := .str "11", p1 := .str "Winner of Alice vs Bob", p2 := .str "Carol",
                s1Info := { text := .str "Winner of Alice vs Bob", isKnown := false,
                            isDeepKnown := true },
                s2Info := { text := .str "Carol", isKnown := true, isDeepKnown := true },
                round := "Bracket: Round 1", station := .null, isStream := false,
                startedAt := .null, status := .num 5 } : DisplayMatch)] :=
  scenario_end_to_end scenarioACompleted scenarioAActive _
    (completedNode (.str "10") [some (namedSlot "Alice"), some (namedSlot "Bob")])
    (activeNode (.str "11") 5 [some (prereqSlot (.str "10") (.num 1)), some (namedSlot "Carol")])
    [some (namedSlot "Alice"), some (namedSlot "Bob")] []
    (prereqSlot (.str "10") (.num 1)) (namedSlot "Carol") "Alice" "Bob" "Carol"
    (by decide) (by decide) (by decide) (by decide) rfl rfl rfl (by decide) (by decide)
    (by decide) rfl rfl rfl rfl rfl rfl (by decide)

/-! ## Theorems: the fetch cycle -/

/-- C13: the published cycle depends on the response only.  For two prior
dashboards and the same successful response, the matches list, the upcoming
list (and the meta and the countdown) after the fetch are identical; they are
the pipeline applied to the arrays of this response, with an index built from
these arrays alone; and a second run on the same response changes nothing. -/
theorem cycle_depends_on_response_only (s1 s2 : Dashboard) (r : ResponseJson)
    (h : fetchSucceeded (.json r) s1 = true) :
    ((fetchDataComplete (.json r) s1).1.matches_ = (fetchDataComplete (.json r) s2).1.matches_
      ∧ (fetchDataComplete (.json r) s1).1.upcomingMatches
          = (fetchDataComplete (.json r) s2).1.upcomingMatches
      ∧ (fetchDataComplete (.json r) s1).1.meta = (fetchDataComplete (.json r) s2).1.meta
      ∧ (fetchDataComplete (.json r) s1).1.timer = (fetchDataComplete (.json r) s2).1.timer)
    ∧ (∃ eventData act comp cd, eventOf r = some eventData
        ∧ eventData.activeSets = some act ∧ eventData.completedSets = some comp
        ∧ cleanData (buildSetMap (comp.nodes.getD []) (act.nodes.getD [])) (act.nodes.getD [])
            = .ok cd
        ∧ (fetchDataComplete (.json r) s1).1.matches_ = cd
        ∧ (fetchDataComplete (.json r) s1).1.upcomingMatches = upcomingFiltered cd)
    ∧ (fetchDataComplete (.json r) (fetchDataComplete (.json r) s1).1).1
        = (fetchDataComplete (.json r) s1).1 := by
  obtain ⟨r2, ev, hr, hev, hok⟩ := (fetchSucceeded_iff _ _).mp h
  injection hr with hr
  subst hr
  obtain ⟨tourney, images, act, comp, cd, h1, h2, h3, h4, h5, _⟩ := processEvent_ok ev s1 hok
  have hall : ∀ s : Dashboard, (fetchDataComplete (.json r) s).1
      = { s with meta := metaOf ev tourney images, matches_ := cd,
                 upcomingMatches := upcomingFiltered cd, timer := 30, loading := false } := by
    intro s
    rw [fetchDataComplete_eq, tryBlock_json, hev]
    simp only [processEvent_success ev tourney images act comp cd h1 h2 h3 h4 h5 s]
  refine ⟨?_, ⟨ev, act, comp, cd, hev, h3, h4, h5, ?_, ?_⟩, ?_⟩
  · rw [hall s1, hall s2]
    exact ⟨rfl, rfl, rfl, rfl⟩
  · rw [hall s1]
  · rw [hall s1]
  · rw [hall (fetchDataComplete (.json r) s1).1, hall s1]

/-- Witness of C13: the Scenario A response, received by two different prior
dashboards, publishes the same single display match. -/
theorem cycle_depends_on_response_only_witness :
    (fetchDataComplete (.json sampleResponse) staleDashboard).1.matches_
        = (fetchDataComplete (.json sampleResponse) otherDashboard).1.matches_
    ∧ (fetchDataComplete (.json sampleResponse) staleDashboard).1.upcomingMatches
        = (fetchDataComplete (.json sampleResponse) otherDashboard).1.upcomingMatches
    ∧ (fetchDataComplete (.json sampleResponse) staleDashboard).1.matches_ = [scenarioAMatch] :=
  have h := cycle_depends_on_response_only staleDashboard otherDashboard sampleResponse
    (by decide)
  ⟨h.1.1, h.1.2.1, by decide⟩

/-- C14, as stated, fails: when processing raises after `setMeta` (here the
event has no `activeSets` connection), the fetch has failed, the lists are
unchanged, but the meta shows the names of the new response. -/
theorem failed_fetch_keeps_state_counterexample :
    fetchSucceeded (.json noSetsResponse) staleDashboard = false
    ∧ (tryBlock (.json noSetsResponse) staleDashboard).2 = .error .typeError
    ∧ (fetchDataComplete (.json noSetsResponse) staleDashboard).1.meta
        = { tourneyName := .str "Harbor Clash", eventName := .str "Singles",
            logo := .str "logo.png" }
    ∧ (fetchDataComplete (.json noSetsResponse) staleDashboard).1.meta ≠ staleDashboard.meta
    ∧ ¬ (∀ (s : Dashboard) (o : FetchOutcome), fetchSucceeded o s = false →
          (fetchDataComplete o s).1.matches_ = s.matches_
          ∧ (fetchDataComplete o s).1.upcomingMatches = s.upcomingMatches
          ∧ (fetchDataComplete o s).1.meta = s.meta) := by
  refine ⟨by decide, by decide, by decide, by decide, fun h => ?_⟩
  have h1 := (h staleDashboard (.json noSetsResponse) (by decide)).2.2
  revert h1
  decide

/-- C14 (amended): after a failed fetch (the request raises, the response lacks
`data.event`, or processing raises) the matches list and the upcoming list
equal their values before the fetch; the meta is unchanged as well when the
request raises, when the response lacks `data.event`, and when the event lacks
its tournament or the tournament its images. -/
theorem failed_fetch_keeps_lists (s : Dashboard) (o : FetchOutcome)
    (h : fetchSucceeded o s = false) :
    (fetchDataComplete o s).1.matches_ = s.matches_
    ∧ (fetchDataComplete o s).1.upcomingMatches = s.upcomingMatches
    ∧ (o = .rejected → (fetchDataComplete o s).1.meta = s.meta)
    ∧ (∀ r, o = .json r → eventOf r = none → (fetchDataComplete o s).1.meta = s.meta)
    ∧ (∀ r eventData, o = .json r → eventOf r = some eventData →
        (eventData.tournament = none ∨
          ∃ tourney, eventData.tournament = some tourney ∧ tourney.images = none) →
        (fetchDataComplete o s).1.meta = s.meta) := by
  obtain ⟨hm, hu, _⟩ := tryBlock_failed o s h
  rw [fetchDataComplete_eq]
  refine ⟨hm, hu, ?_, ?_, ?_⟩
  · intro ho
    subst ho
    rfl
  · intro r ho hev
    subst ho
    show (tryBlock (.json r) s).1.meta = s.meta
    rw [tryBlock_json, hev]
  · intro r ev ho hev hearly
    subst ho
    show (tryBlock (.json r) s).1.meta = s.meta
    rw [tryBlock_json, hev]
    simp only [processEvent_early ev s hearly]

/-- Witness of C14 (amended): a rejected request, a body without `data.event`
and a body without `activeSets` all leave the lists of `staleDashboard`. -/
theorem failed_fetch_keeps_lists_witness :
    (fetchDataComplete .rejected staleDashboard).1.matches_ = staleDashboard.matches_
    ∧ (fetchDataComplete .rejected staleDashboard).1.meta = staleDashboard.meta
    ∧ (fetchDataComplete (.json noEventResponse) staleDashboard).1.meta = staleDashboard.meta
    ∧ (fetchDataComplete (.json noSetsResponse) staleDashboard).1.upcomingMatches
        = staleDashboard.upcomingMatches :=
  ⟨(failed_fetch_keeps_lists staleDashboard .rejected (by decide)).1,
   (failed_fetch_keeps_lists staleDashboard .rejected (by decide)).2.2.1 rfl,
   (failed_fetch_keeps_lists staleDashboard (.json noEventResponse) (by decide)).2.2.2.1
      noEventResponse rfl (by decide),
   (failed_fetch_keeps_lists staleDashboard (.json noSetsResponse) (by decide)).2.1⟩

/-- C15, as stated, fails: after a rejected request, and after a body without
`data.event`, the countdown still has the value 0 it had before. -/
theorem timer_reset_on_completion_counterexample :
    staleDashboard.timer = 0
    ∧ (fetchDataComplete .rejected staleDashboard).1.timer = 0
    ∧ (fetchDataComplete (.json noEventResponse) staleDashboard).1.timer = 0
    ∧ ¬ (∀ (s : Dashboard) (o : FetchOutcome), (fetchDataComplete o s).1.timer = 30) := by
  refine ⟨by decide, by decide, by decide, fun h => ?_⟩
  have h1 := h staleDashboard .rejected
  revert h1
  decide

/-- C15 (amended): the countdown is set to 30 when a fetch completes
successfully; when the fetch fails (the request raises, the response lacks
`data.event`, or processing raises) the completion leaves the countdown at the
value it had. -/
theorem timer_after_fetch (s : Dashboard) (o : FetchOutcome) :
    (fetchSucceeded o s = true → (fetchDataComplete o s).1.timer = 30)
    ∧ (fetchSucceeded o s = false → (fetchDataComplete o s).1.timer = s.timer) := by
  constructor
  · intro h
    obtain ⟨r, ev, hr, hev, hok⟩ := (fetchSucceeded_iff _ _).mp h
    subst hr
    obtain ⟨tourney, images, act, comp, cd, h1, h2, h3, h4, h5, _⟩ := processEvent_ok ev s hok
    rw [fetchDataComplete_eq, tryBlock_json, hev]
    simp only [processEvent_success ev tourney images act comp cd h1 h2 h3 h4 h5 s]
  · intro h
    rw [fetchDataComplete_eq]
    exact (tryBlock_failed o s h).2.2

/-- Witness of C15 (amended): the Scenario A response resets the countdown of
`staleDashboard` from 0 to 30, a rejected request leaves it at 0. -/
theorem timer_after_fetch_witness :
    (fetchDataComplete (.json sampleResponse) staleDashboard).1.timer = 30
    ∧ (fetchDataComplete .rejected staleDashboard).1.timer = staleDashboard.timer :=
  ⟨(timer_after_fetch staleDashboard (.json sampleResponse)).1 (by decide),
   (timer_after_fetch staleDashboard .rejected).2 (by decide)⟩

/-! ## Theorems: the refresh scheduler -/

/-- C16, as stated, fails.  The 30-second interval starts a fetch whatever
`loading` is: after `overlapTrace` two requests are in flight.  When the first
of them settles, `loading` is false while the other is still in flight, the
wheel is enabled, and a click runs `handleManualRefresh`, which sets the
countdown from 28 to 30 and issues one more request. -/
theorem manual_refresh_noop_counterexample :
    (run overlapTrace).inFlight = 2
    ∧ (run (overlapTrace ++ [.settle (.json sampleResponse), .countdown, .countdown])).inFlight = 1
    ∧ (run (overlapTrace ++ [.settle (.json sampleResponse), .countdown, .countdown])).dash.loading
        = false
    ∧ (run (overlapTrace ++ [.settle (.json sampleResponse), .countdown, .countdown])).dash.timer
        = 28
    ∧ (run (overlapTrace ++ [.settle (.json sampleResponse), .countdown, .countdown, .click])).inFlight
        = 2
    ∧ (run (overlapTrace ++ [.settle (.json sampleResponse), .countdown, .countdown, .click])).dash.timer
        = 30
    ∧ ¬ (∀ es : List Event, (run es).inFlight ≤ 1) := by
  refine ⟨by decide, by decide, by decide, by decide, by decide, by decide, fun h => ?_⟩
  have h1 := h overlapTrace
  revert h1
  decide

/-- C16 (amended): in every state reached from mounting by a sequence of events
in which no tick of the 30-second interval fires while a fetch is in flight (in
particular by every sequence without such a tick, lemma
`cadenceFindsIdle_of_no_cadence`), at most one fetch is in flight, `loading` is
true exactly while one is in flight, and a manual trigger received while a
fetch is in flight is a no-op: the state is unchanged, no second request is
issued and the countdown keeps its value.  A click in any such state leaves at
most one fetch in flight. -/
theorem manual_refresh_serialized (es : List Event)
    (h : cadenceFindsIdle mounted es = true) :
    (run es).inFlight ≤ 1
    ∧ ((run es).dash.loading = true ↔ 0 < (run es).inFlight)
    ∧ (0 < (run es).inFlight →
        step (run es) .click = run es
        ∧ (step (run es) .click).inFlight = (run es).inFlight
        ∧ (step (run es) .click).dash.timer = (run es).dash.timer)
    ∧ (step (run es) .click).inFlight ≤ 1 := by
  have hI : (run es).inFlight ≤ 1 ∧ ((run es).dash.loading = true ↔ (run es).inFlight = 1) :=
    foldl_step_serialized es mounted mounted_serialized h
  have hpos : (run es).dash.loading = true ↔ 0 < (run es).inFlight := by
    rw [hI.2]
    omega
  refine ⟨hI.1, hpos, ?_, ?_⟩
  · intro h0
    have hl := hpos.2 h0
    have hs : step (run es) .click = run es := by
      unfold step
      simp [hl]
    rw [hs]
    exact ⟨rfl, rfl, rfl⟩
  · exact (step_serialized (run es) .click hI (fun hc => by cases hc)).1

set_option maxRecDepth 8000 in
/-- Witness of C16 (amended): in `serialTrace` the cadence tick fires after the
first response; the click that follows it finds the second fetch in flight and
changes nothing. -/
theorem manual_refresh_serialized_witness :
    cadenceFindsIdle mounted serialTrace = true
    ∧ (run serialTrace).inFlight = 1
    ∧ step (run serialTrace) .click = run serialTrace
    ∧ (step (run serialTrace) .click).dash.timer = (run serialTrace).dash.timer :=
  ⟨by decide, by decide,
   ((manual_refresh_serialized serialTrace (by decide)).2.2.1 (by decide)).1,
   ((manual_refresh_serialized serialTrace (by decide)).2.2.1 (by decide)).2.2⟩

/-- C17, as stated, fails: a body with a non-empty `errors` list and
`data.event` is processed; the lists and the meta are replaced. -/
theorem errors_abort_cycle_counterexample :
    errorsResponse.errors = some [.str "query complexity"]
    ∧ (fetchDataComplete (.json errorsResponse) staleDashboard).1.matches_ = [scenarioAMatch]
    ∧ (fetchDataComplete (.json errorsResponse) staleDashboard).1.matches_
        ≠ staleDashboard.matches_
    ∧ (fetchDataComplete (.json errorsResponse) staleDashboard).1.upcomingMatches
        ≠ staleDashboard.upcomingMatches
    ∧ (fetchDataComplete (.json errorsResponse) staleDashboard).1.meta ≠ staleDashboard.meta := by
  refine ⟨rfl, by decide, by decide, by decide, by decide⟩

/-- C17 (amended): the `errors` field is not read.  A response with a reported
error list is handled exactly like the same response without the list: when it
lacks `data.event` the matches list, the upcoming list and the meta keep their
previous values; when it contains `data.event` the event is processed. -/
theorem errors_field_not_read (s : Dashboard) (r : ResponseJson) :
    fetchDataComplete (.json r) s = fetchDataComplete (.json { r with errors := none }) s
    ∧ (eventOf r = none →
        (fetchDataComplete (.json r) s).1.matches_ = s.matches_
        ∧ (fetchDataComplete (.json r) s).1.upcomingMatches = s.upcomingMatches
        ∧ (fetchDataComplete (.json r) s).1.meta = s.meta)
    ∧ (∀ eventData, eventOf r = some eventData →
        (fetchDataComplete (.json r) s).1
          = { (processEvent eventData s).1 with loading := false }) := by
  refine ⟨rfl, ?_, ?_⟩
  · intro hev
    rw [fetchDataComplete_eq, tryBlock_json, hev]
    exact ⟨rfl, rfl, rfl⟩
  · intro ev hev
    rw [fetchDataComplete_eq, tryBlock_json, hev]

/-- Witness of C17 (amended): the body with an error list and no `data.event`
leaves `staleDashboard` as it was, and the body with an error list and
`data.event` gives the state of the body without the list. -/
theorem errors_field_not_read_witness :
    fetchDataComplete (.json errorsResponse) staleDashboard
        = fetchDataComplete (.json sampleResponse) staleDashboard
    ∧ (fetchDataComplete (.json noEventResponse) staleDashboard).1.matches_
        = staleDashboard.matches_
    ∧ (fetchDataComplete (.json noEventResponse) staleDashboard).1.upcomingMatches
        = staleDashboard.upcomingMatches
    ∧ (fetchDataComplete (.json noEventResponse) staleDashboard).1.meta = staleDashboard.meta :=
  ⟨(errors_field_not_read staleDashboard errorsResponse).1,
   (errors_field_not_read staleDashboard noEventResponse).2.1 (by decide)⟩

/-- C18: the scheduler always returns to Idle.  For every prior state and every
outcome of the request (success, missing event object, an exception raised at
any point of the `try` block) the completion of `fetchData` raises nothing and
leaves `loading` false. -/
theorem fetchData_returns_to_idle (s : Dashboard) (o : FetchOutcome) :
    (fetchDataComplete o s).2 = .ok () ∧ (fetchDataComplete o s).1.loading = false := by
  rw [fetchDataComplete_eq]
  exact ⟨rfl, rfl⟩

/-! ## Theorems: the elapsed timer -/

/-- C19, as stated, fails in three ways.  The start timestamp 0 is present, at
the clock value 65000 ms the elapsed time is 65 s, the claim asks for "01:05",
and `MatchTimer` shows "00:00" because `!startedAt` holds for 0.  The start
timestamp -9000000000000 is outside the range of `Date`: the elapsed time at
the clock value 1700000000000 ms is positive and `MatchTimer` shows "NaN:NaN".
For the start -400000000000 and the clock value 8639999999999999 ms the
difference 9039999999999999 ms exceeds 9007199254740992 and is odd, the
subtraction gives the rounded number 9040000000000000, and `MatchTimer` shows
40 seconds where the claim asks for 39. -/
theorem matchTimer_renders_counterexample :
    specElapsed 0 65000 = 65
    ∧ specRender 65 = "01:05"
    ∧ MatchTimer (some 0) 65000 = "00:00"
    ∧ 0 ≤ specElapsed (-9000000000000) 1700000000000
    ∧ MatchTimer (some (-9000000000000)) 1700000000000 = "NaN:NaN"
    ∧ specElapsed (-400000000000) 8639999999999999 = 9039999999999
    ∧ specRender 9039999999999 = "150666666666:39"
    ∧ MatchTimer (some (-400000000000)) 8639999999999999 = "150666666666:40"
    ∧ ¬ (∀ s now : Int, 0 ≤ specElapsed s now →
          MatchTimer (some s) now = specRender (specElapsed s now).toNat) := by
  refine ⟨by decide, by decide, by decide, by decide, by decide, by decide, by decide,
    by decide, fun h => ?_⟩
  have h1 := h 0 65000 (by decide)
  revert h1
  decide

/-- C19 (amended): for every non-zero start timestamp `s` (epoch seconds) and
clock value `now` (epoch milliseconds) that are both in the range of `Date`
(`|1000 * s|` and `|now|` at most 8640000000000000), such that the difference
`now - 1000 * s` is at most 9007199254740992 or the clock value does not end
in 999 milliseconds, and with `d = floor((now - 1000 * s) / 1000) ≥ 0`,
`MatchTimer` shows the minutes `d div 60` and the seconds `d mod 60`, each
left-padded with zeros to two digits, joined by a colon. -/
theorem matchTimer_renders (s now : Int) (hs : s ≠ 0)
    (hv : validTime (s * 1000) = true) (hn : validTime now = true)
    (hx : now - 1000 * s ≤ 9007199254740992 ∨ now % 1000 ≠ 999)
    (hd : 0 ≤ specElapsed s now) :
    MatchTimer (some s) now = specRender (specElapsed s now).toNat := by
  apply matchTimer_of_elapsed s now _ hs hv hn
  rw [Int.toNat_of_nonneg hd]
  apply diffSeconds_whole s now _ hx
  by_contra hc
  have h1 := (specElapsed_neg s now).2 (by omega)
  omega

/-- Witness of C19 (amended): Scenario E, a start 65 seconds in the past shows
"01:05". -/
theorem matchTimer_renders_witness :
    MatchTimer (some 1700000000) 1700000065400 = "01:05" :=
  (matchTimer_renders 1700000000 1700000065400 (by decide) (by decide) (by decide)
    (Or.inl (by decide)) (by decide)).trans (by decide)

/-- C20, as stated, fails: the start timestamp 9000000000000 lies after the
clock value 1700000000000 ms, the elapsed duration is negative, and
`MatchTimer` shows "NaN:NaN", because `new Date(9000000000000 * 1000)` is an
invalid date and `NaN < 0` is false. -/
theorem matchTimer_zero_counterexample :
    (1700000000000 : Int) < 1000 * 9000000000000
    ∧ specElapsed 9000000000000 1700000000000 < 0
    ∧ validTime (9000000000000 * 1000) = false
    ∧ MatchTimer (some 9000000000000) 1700000000000 = "NaN:NaN"
    ∧ ¬ (∀ s now : Int, now < 1000 * s → MatchTimer (some s) now = "00:00") := by
  refine ⟨by decide, by decide, by decide, by decide, fun h => ?_⟩
  have h1 := h 9000000000000 1700000000000 (by decide)
  revert h1
  decide

/-- C20 (amended): `MatchTimer` shows exactly "00:00" when the start timestamp
is absent (`null` or `undefined`), and when the start and the clock value are
both in the range of `Date` (`|1000 * s|` and `|now|` at most 8640000000000000)
and the start lies after the clock value (the elapsed duration is negative). -/
theorem matchTimer_zero (now : Int) :
    MatchTimer none now = "00:00"
    ∧ (∀ s : Int, validTime (s * 1000) = true → validTime now = true →
        now < 1000 * s → MatchTimer (some s) now = "00:00")
    ∧ (∀ s : Int, validTime (s * 1000) = true → validTime now = true →
        specElapsed s now < 0 → MatchTimer (some s) now = "00:00") := by
  refine ⟨rfl, ?_, ?_⟩
  · intro s hv hn h
    exact matchTimer_before_start s now hv hn (by omega)
  · intro s hv hn h
    exact matchTimer_before_start s now hv hn ((specElapsed_neg s now).1 h)

/-- Witness of C20 (amended): a set that starts one second after the clock
value, and a set without start timestamp. -/
theorem matchTimer_zero_witness :
    MatchTimer none 1700000065400 = "00:00"
    ∧ MatchTimer (some 1700000066) 1700000065400 = "00:00" :=
  ⟨(matchTimer_zero 1700000065400).1,
   (matchTimer_zero 1700000065400).2.1 1700000066 (by decide) (by decide) (by decide)⟩

/-- C21, as stated, fails in two ways: 6000 seconds (100 minutes) after the
start the timer shows "100:00", three digits before the colon; and for the
start timestamp 9000000000000, outside the range of `Date`, it shows
"NaN:NaN", no digit at all. -/
theorem matchTimer_shape_counterexample :
    specElapsed 1700000000 1700006000000 = 6000
    ∧ MatchTimer (some 1700000000) 1700006000000 = "100:00"
    ∧ isMmSs "100:00" = false
    ∧ MatchTimer (some 9000000000000) 1700000000000 = "NaN:NaN"
    ∧ isMmSs "NaN:NaN" = false
    ∧ ¬ (∀ (startedAt : Option Int) (now : Int), isMmSs (MatchTimer startedAt now) = true) := by
  refine ⟨by decide, by decide, by decide, by decide, by decide, fun h => ?_⟩
  have h1 := h (some 1700000000) 1700006000000
  revert h1
  decide

/-- C21 (amended): for every start timestamp that is absent, zero, or in the
range of `Date` together with the clock value (`|1000 * s|` and `|now|` at most
8640000000000000), the string shown by the timer is the minutes left-padded
with zeros to at least two digits, a colon, and the seconds, a number below 60,
left-padded to two digits; it has the shape `mm:ss` (exactly two decimal
digits, a colon, two decimal digits forming a number below 60) whenever the
elapsed time is below 6000 seconds, in particular for an absent start and for
a start after the clock value. -/
theorem matchTimer_shape (startedAt : Option Int) (now : Int)
    (hv : ∀ st, startedAt = some st → st ≠ 0 →
      validTime (st * 1000) = true ∧ validTime now = true) :
    (∃ m s : Nat, s < 60 ∧
        MatchTimer startedAt now = specTwoDigits m ++ ":" ++ specTwoDigits s)
    ∧ ((∀ st, startedAt = some st → specElapsed st now < 6000) →
        isMmSs (MatchTimer startedAt now) = true) := by
  rcases matchTimer_cases startedAt now hv with h | ⟨st, hst, _, hle, hd, h⟩
  · rw [h]
    exact ⟨⟨0, 0, by decide, by decide⟩, fun _ => by decide⟩
  · rw [h]
    refine ⟨⟨(diffSeconds st now).toNat / 60, (diffSeconds st now).toNat % 60,
      Nat.mod_lt _ (by decide), rfl⟩, fun hlt => ?_⟩
    have h6 := hlt st hst
    have hlow : 0 ≤ now - 1000 * st := by omega
    have hup : now - 1000 * st < 6000000 := by
      by_contra hc
      have h7 : (6000 : Int) ≤ (now - 1000 * st) / 1000 :=
        Int.le_ediv_of_mul_le (by decide) (by omega)
      unfold specElapsed at h6
      rw [Int.fdiv_eq_ediv _ (by decide)] at h6
      omega
    have hex := diffSeconds_exact st now ⟨by omega, by omega⟩
    rw [hex]
    unfold specRender
    apply isMmSs_twoDigits
    · omega
    · exact Nat.mod_lt _ (by decide)

/-- Witness of C21 (amended): 65 seconds after the start the timer shows a
string of the shape `mm:ss`. -/
theorem matchTimer_shape_witness :
    isMmSs (MatchTimer (some 1700000000) 1700000065400) = true :=
  (matchTimer_shape (some 1700000000) 1700000065400
    (fun st h _ => by
      have h2 : st = 1700000000 := (Option.some.inj h).symm
      subst h2
      exact ⟨by decide, by decide⟩)).2
    (fun st h => by
      have h2 : st = 1700000000 := (Option.some.inj h).symm
      subst h2
      decide)

/-- C22: in every state reached from mounting the countdown is within 0..30.
It starts at 30; a one-second tick lowers it by exactly 1 while it is positive
and leaves it at 0 once it is 0; `handleManualRefresh` and the completion of a
successful fetch set it to 30. -/
theorem countdown_within_bounds (es : List Event) :
    (0 ≤ (run es).dash.timer ∧ (run es).dash.timer ≤ 30)
    ∧ (initialDashboard.timer = 30 ∧ (run []).dash.timer = 30)
    ∧ (0 < (run es).dash.timer →
        (step (run es) .countdown).dash.timer = (run es).dash.timer - 1)
    ∧ ((run es).dash.timer = 0 → (step (run es) .countdown).dash.timer = 0)
    ∧ (handleManualRefresh (run es)).dash.timer = 30
    ∧ ((run es).dash.loading = false → (step (run es) .click).dash.timer = 30)
    ∧ (∀ o, fetchSucceeded o (run es).dash = true →
        (fetchDataComplete o (run es).dash).1.timer = 30
        ∧ (0 < (run es).inFlight → (step (run es) (.settle o)).dash.timer = 30)) := by
  refine ⟨run_timer_bounds es, ⟨rfl, rfl⟩, ?_, ?_, rfl, ?_, ?_⟩
  · intro h
    show (if (run es).dash.timer > 0 then (run es).dash.timer - 1 else 0) = _
    rw [if_pos h]
  · intro h
    show (if (run es).dash.timer > 0 then (run es).dash.timer - 1 else 0) = _
    rw [h]
    rfl
  · intro h
    unfold step
    simp only [h]
    rfl
  · intro o h
    have h30 := fetchDataComplete_timer_success o (run es).dash h
    refine ⟨h30, fun hpos => ?_⟩
    unfold step
    have hne : ¬ ((run es).inFlight = 0) := by omega
    simp only [hne, if_false]
    exact h30

set_option maxRecDepth 8000 in
/-- Witness of C22: after a successful first fetch and 31 ticks the countdown
is 0, one more tick leaves it at 0, and a click sets it to 30. -/
theorem countdown_within_bounds_witness :
    (run ([Event.settle (.json sampleResponse)] ++ List.replicate 31 Event.countdown)).dash.timer = 0
    ∧ (step (run ([Event.settle (.json sampleResponse)] ++ List.replicate 31 Event.countdown))
        .countdown).dash.timer = 0
    ∧ (step (run ([Event.settle (.json sampleResponse)] ++ List.replicate 31 Event.countdown))
        .click).dash.timer = 30 :=
  have h := countdown_within_bounds
    ([Event.settle (.json sampleResponse)] ++ List.replicate 31 Event.countdown)
  ⟨by decide, h.2.2.2.1 (by decide), h.2.2.2.2.2.1 (by decide)⟩

/-! ## Theorems: coverage of the cycle -/

/-- C23: a successful fetch whose active connection has an empty or a null
`nodes` array publishes an empty cycle: whatever was displayed before, the
matches list and the upcoming list are empty afterwards, and so are the Called
and the Playing list. -/
theorem empty_cycle_is_authoritative (s : Dashboard) (r : ResponseJson)
    (eventData : EventData) (act : SetConnection)
    (hev : eventOf r = some eventData) (hact : eventData.activeSets = some act)
    (hn : act.nodes = none ∨ act.nodes = some [])
    (hok : fetchSucceeded (.json r) s = true) :
    (fetchDataComplete (.json r) s).1.matches_ = []
    ∧ (fetchDataComplete (.json r) s).1.upcomingMatches = []
    ∧ called (fetchDataComplete (.json r) s).1.matches_ = []
    ∧ playing (fetchDataComplete (.json r) s).1.matches_ = [] := by
  obtain ⟨r2, ev, hr, hev2, hres⟩ := (fetchSucceeded_iff _ _).mp hok
  injection hr with hr
  subst hr
  rw [hev] at hev2
  injection hev2 with hev2
  subst hev2
  obtain ⟨tourney, images, act2, comp, cd, h1, h2, h3, h4, h5, _⟩ :=
    processEvent_ok eventData s hres
  rw [hact] at h3
  injection h3 with h3
  subst h3
  have hnodes : act.nodes.getD [] = [] := by
    rcases hn with h | h <;> rw [h] <;> rfl
  rw [hnodes, cleanData_nil_ok] at h5
  subst h5
  have hst : (fetchDataComplete (.json r) s).1
      = { s with meta := metaOf eventData tourney images, matches_ := [],
                 upcomingMatches := upcomingFiltered [], timer := 30, loading := false } := by
    rw [fetchDataComplete_eq, tryBlock_json, hev]
    have h5b : cleanData (buildSetMap (comp.nodes.getD []) (act.nodes.getD []))
        (act.nodes.getD []) = .ok [] := by
      rw [hnodes]; rfl
    simp only [processEvent_success eventData tourney images act comp [] h1 h2 hact h4 h5b s]
  rw [hst]
  exact ⟨rfl, rfl, rfl, rfl⟩

/-- Witness of C23: `staleDashboard` shows five matches; a response with an
empty `nodes` array, and one with `nodes: null`, wipe them. -/
theorem empty_cycle_is_authoritative_witness :
    staleDashboard.matches_.length = 5
    ∧ (fetchDataComplete (.json emptyActiveResponse) staleDashboard).1.matches_ = []
    ∧ (fetchDataComplete (.json emptyActiveResponse) staleDashboard).1.upcomingMatches = []
    ∧ (fetchDataComplete (.json nullActiveResponse) staleDashboard).1.matches_ = [] :=
  ⟨by decide,
   (empty_cycle_is_authoritative staleDashboard emptyActiveResponse
      { sampleEvent with activeSets := some { nodes := some [] } } { nodes := some [] }
      rfl rfl (Or.inr rfl) (by decide)).1,
   (empty_cycle_is_authoritative staleDashboard emptyActiveResponse
      { sampleEvent with activeSets := some { nodes := some [] } } { nodes := some [] }
      rfl rfl (Or.inr rfl) (by decide)).2.1,
   (empty_cycle_is_authoritative staleDashboard nullActiveResponse
      { sampleEvent with activeSets := some { nodes := none } } { nodes := none }
      rfl rfl (Or.inl rfl) (by decide)).1⟩

/-! ## Theorems: labels -/

/-- C24, as stated, fails: a slot whose entrant object has the empty name, or
the name `null`, resolves with `isKnown = true`. -/
theorem isKnown_concrete_name_counterexample :
    resolveSlotInfo sampleIndex emptyEntrantSlot
        = .ok { text := .str "", isKnown := true, isDeepKnown := true }
    ∧ resolveSlotInfo sampleIndex nullEntrantSlot
        = .ok { text := .null, isKnown := true, isDeepKnown := true }
    ∧ ¬ (∀ (setMap : SetMap) (slot : Slot) (info : ResolvedSlotInfo),
          resolveSlotInfo setMap slot = .ok info → info.isKnown = true →
          ∃ nm : String, nm ≠ "" ∧ slot.entrant = some { name := .str nm }
            ∧ info.text = .str nm) := by
  refine ⟨rfl, rfl, fun h => ?_⟩
  obtain ⟨nm, hne, hent, _⟩ := h sampleIndex emptyEntrantSlot
    { text := .str "", isKnown := true, isDeepKnown := true } rfl rfl
  have h2 : (JSVal.str "") = JSVal.str nm := by
    have h3 := Option.some.inj hent
    exact congrArg Entrant.name h3
  injection h2 with h2
  exact hne h2.symm

/-- C24 (amended): `isKnown` is true only for a slot that carries an entrant:
for every slot and index, if `resolveSlotInfo` returns `isKnown = true` then
the slot carries an entrant object, the returned text is that entrant's name
(whatever it is) and `isDeepKnown` is true as well. -/
theorem isKnown_only_with_entrant (setMap : SetMap) (slot : Slot) (info : ResolvedSlotInfo)
    (h : resolveSlotInfo setMap slot = .ok info) (hk : info.isKnown = true) :
    ∃ e : Entrant, slot.entrant = some e ∧ info.text = e.name ∧ info.isDeepKnown = true := by
  cases he : slot.entrant with
  | some e =>
    unfold resolveSlotInfo at h
    rw [he] at h
    injection h with h
    subst h
    exact ⟨e, rfl, rfl, rfl⟩
  | none =>
    exfalso
    unfold resolveSlotInfo at h
    simp only [he] at h
    by_cases hT : slot.prereqId.truthy = true
    · simp only [hT, if_true] at h
      by_cases hH : setMap.has slot.prereqId.toStr = true
      · simp only [hH, if_true] at h
        cases hg : setMap.get slot.prereqId.toStr with
        | none => rw [hg] at h; cases h
        | some pSet =>
          cases hs : pSet.slots with
          | none => simp only [hg, hs] at h; cases h
          | some ss =>
            simp only [hg, hs] at h
            by_cases hn : ((slotEntrantName ss 0).truthy && (slotEntrantName ss 1).truthy) = true
            · simp only [hn, if_true] at h
              injection h with h
              subst h
              cases hk
            · simp only [hn] at h
              injection h with h
              subst h
              cases hk
      · simp only [hH] at h
        injection h with h
        subst h
        cases hk
    · simp only [hT] at h
      injection h with h
      subst h
      cases hk

/-- Witness of C24 (amended): a named slot that also carries a prerequisite. -/
theorem isKnown_only_with_entrant_witness :
    ∃ e : Entrant,
      ({ entrant := some { name := .str "Zed" }, prereqId := .str "10",
         prereqPlacement := .num 2 } : Slot).entrant = some e
      ∧ ({ text := .str "Zed", isKnown := true, isDeepKnown := true } : ResolvedSlotInfo).text
          = e.name
      ∧ ({ text := .str "Zed", isKnown := true, isDeepKnown := true } : ResolvedSlotInfo).isDeepKnown
          = true :=
  isKnown_only_with_entrant sampleIndex
    { entrant := some { name := .str "Zed" }, prereqId := .str "10", prereqPlacement := .num 2 }
    { text := .str "Zed", isKnown := true, isDeepKnown := true } rfl rfl

/-- C25, as stated, fails: the prerequisite identifier 0 is present and in no
index, yet the slot resolves to "TBD", not to a label "<T>. of Set <S>". -/
theorem fallback_label_counterexample :
    sampleIndex.has (JSVal.num 0).toStr = false
    ∧ resolveSlotInfo sampleIndex (prereqSlot (.num 0) (.num 1))
        = .ok { text := .str "TBD", isKnown := false, isDeepKnown := false }
    ∧ ¬ (∀ (setMap : SetMap) (slot : Slot), slot.entrant = none →
          slot.prereqId ≠ .null → slot.prereqId ≠ .undefined →
          setMap.has slot.prereqId.toStr = false →
          ∃ T S : String, resolveSlotInfo setMap slot
            = .ok { text := .str (T ++ ". of Set " ++ S), isKnown := false,
                    isDeepKnown := false }) := by
  refine ⟨by decide, by decide, fun h => ?_⟩
  obtain ⟨T, S, hTS⟩ := h sampleIndex (prereqSlot (.num 0) (.num 1)) rfl (by decide)
    (by decide) (by decide)
  have h0 : resolveSlotInfo sampleIndex (prereqSlot (.num 0) (.num 1))
      = .ok { text := .str "TBD", isKnown := false, isDeepKnown := false } := by decide
  rw [h0] at hTS
  injection hTS with hTS
  have h1 := congrArg ResolvedSlotInfo.text hTS
  injection h1 with h1
  exact tbd_ne_fallback T S h1

/-- C25 (amended): in the fallback case (no entrant, a truthy prerequisite
identifier, that is a non-empty string or a non-zero number, which is
unresolved: not in the index, or in the index with a slot that has no truthy
entrant name) the label is exactly "<T>. of Set <S>", where `T` is "W" for
placement 1 and "L" otherwise and `S` is the part of the identifier's string
form after its last underscore: the whole identifier when it contains no
underscore, and the whole identifier again when the part after the last
underscore is empty.  `S` is a non-empty suffix of the identifier and never
longer than it. -/
theorem fallback_label (setMap : SetMap) (slot : Slot)
    (hE : slot.entrant = none) (hT : slot.prereqId.truthy = true)
    (hU : setMap.has slot.prereqId.toStr = false ∨
      ∃ pSet ss, setMap.get slot.prereqId.toStr = some pSet ∧ pSet.slots = some ss ∧
        ((slotEntrantName ss 0).truthy = false ∨ (slotEntrantName ss 1).truthy = false)) :
    ∃ T S : String,
      resolveSlotInfo setMap slot
        = .ok { text := .str (T ++ ". of Set " ++ S), isKnown := false, isDeepKnown := false }
      ∧ (slot.prereqPlacement = .num 1 → T = "W")
      ∧ (slot.prereqPlacement ≠ .num 1 → T = "L")
      ∧ ('_' ∉ slot.prereqId.toStr.data → S = slot.prereqId.toStr)
      ∧ (∀ pre suf : List Char, slot.prereqId.toStr.data = pre ++ '_' :: suf → '_' ∉ suf →
          suf ≠ [] → S = String.mk suf)
      ∧ (∀ pre : List Char, slot.prereqId.toStr.data = pre ++ ['_'] → S = slot.prereqId.toStr)
      ∧ S.data <:+ slot.prereqId.toStr.data ∧ S ≠ ""
      ∧ S.length ≤ slot.prereqId.toStr.length := by
  refine ⟨if slot.prereqPlacement = .num 1 then "W" else "L", shortId slot.prereqId,
    resolveSlotInfo_fallback setMap slot hE hT hU, ?_, ?_, ?_, ?_, ?_, ?_⟩
  · intro h; rw [if_pos h]
  · intro h; rw [if_neg h]
  · exact shortId_no_underscore slot.prereqId
  · intro pre suf h1 h2 h3
    rw [shortId_after_last slot.prereqId pre suf h1 h2, if_neg h3]
  · intro pre h1
    rw [shortId_after_last slot.prereqId pre [] h1 (by simp), if_pos rfl]
  · exact shortId_suffix slot.prereqId hT

/-- Witness of C25 (amended): the identifier "preview_123_7" is in no index and
gives "L. of Set 7"; "preview_" gives the whole identifier. -/
theorem fallback_label_witness :
    resolveSlotInfo sampleIndex (prereqSlot (.str "preview_123_7") (.num 2))
        = .ok { text := .str "L. of Set 7", isKnown := false, isDeepKnown := false }
    ∧ resolveSlotInfo sampleIndex (prereqSlot (.str "preview_") (.num 1))
        = .ok { text := .str "W. of Set preview_", isKnown := false, isDeepKnown := false } :=
  ⟨(fallback_label sampleIndex (prereqSlot (.str "preview_123_7") (.num 2)) rfl (by decide)
      (Or.inl (by decide))).elim (fun _ hT => hT.elim (fun _ _ => by decide)),
   by decide⟩

/-- C26: the word is decided by equality with 1 only.  For a slot with no
entrant and a truthy prerequisite identifier, a placement equal to the number 1
gives "Winner" in the derived label and "W" in the fallback label, and every
other placement (absent, `null`, 0, 2, 3, ...) gives "Loser" and "L". -/
theorem placement_word (setMap : SetMap) (slot : Slot) (info : ResolvedSlotInfo)
    (hE : slot.entrant = none) (hT : slot.prereqId.truthy = true)
    (h : resolveSlotInfo setMap slot = .ok info) :
    (slot.prereqPlacement = .num 1 →
      (info.isDeepKnown = true →
        ∃ A B : String, info.text = .str ("Winner of " ++ A ++ " vs " ++ B))
      ∧ (info.isDeepKnown = false →
        info.text = .str ("W. of Set " ++ shortId slot.prereqId)))
    ∧ (slot.prereqPlacement ≠ .num 1 →
      (info.isDeepKnown = true →
        ∃ A B : String, info.text = .str ("Loser of " ++ A ++ " vs " ++ B))
      ∧ (info.isDeepKnown = false →
        info.text = .str ("L. of Set " ++ shortId slot.prereqId))) := by
  rcases resolveSlotInfo_shapes setMap slot info hE hT h with ⟨A, B, _, _, hd⟩ | hf
  · subst hd
    constructor
    · intro hp
      refine ⟨fun _ => ⟨A, B, ?_⟩, fun hc => by cases hc⟩
      simp only [hp, if_true]
      rfl
    · intro hp
      refine ⟨fun _ => ⟨A, B, ?_⟩, fun hc => by cases hc⟩
      simp only [hp, if_false]
      rfl
  · subst hf
    constructor
    · intro hp
      refine ⟨fun hc => (by cases hc), fun _ => ?_⟩
      simp only [hp, if_true]
      rfl
    · intro hp
      refine ⟨fun hc => (by cases hc), fun _ => ?_⟩
      simp only [hp, if_false]
      rfl

/-- Witness of C26: Scenario B, the slot `{prereqId: "99"}` with no placement
gives "L. of Set 99". -/
theorem placement_word_witness :
    ({ text := .str "L. of Set 99", isKnown := false, isDeepKnown := false }
        : ResolvedSlotInfo).text
      = .str ("L. of Set " ++ shortId (prereqSlot (.str "99") .undefined).prereqId) :=
  ((placement_word sampleIndex (prereqSlot (.str "99") .undefined)
      { text := .str "L. of Set 99", isKnown := false, isDeepKnown := false }
      rfl (by decide) (by decide)).2 (by decide)).2 rfl

/-- C27: only active sets are displayed, one display match each.  After a
successful fetch the matches list has the length of the active-set list; its
k-th element has the identifier and the state of the k-th active set, and
`p1`/`p2` are the texts resolved for that set's first and second slot; and a
completed set whose identifier is that of no active set is the source of no
element of the matches, Called, Playing and upcoming lists. -/
theorem only_active_sets_displayed (s : Dashboard) (r : ResponseJson)
    (hok : fetchSucceeded (.json r) s = true) :
    ∃ eventData act comp, eventOf r = some eventData
      ∧ eventData.activeSets = some act ∧ eventData.completedSets = some comp
      ∧ (fetchDataComplete (.json r) s).1.matches_.length = (act.nodes.getD []).length
      ∧ (∀ (k : Nat) (n : SetNode), (act.nodes.getD []).get? k = some n →
          ∃ m s1 s2, (fetchDataComplete (.json r) s).1.matches_.get? k = some m
            ∧ m.id = n.id ∧ m.status = n.state
            ∧ resolveNodeSlot (buildSetMap (comp.nodes.getD []) (act.nodes.getD [])) n 0 = .ok s1
            ∧ resolveNodeSlot (buildSetMap (comp.nodes.getD []) (act.nodes.getD [])) n 1 = .ok s2
            ∧ m.p1 = s1.text ∧ m.p2 = s2.text)
      ∧ (∀ c ∈ comp.nodes.getD [], (∀ n ∈ act.nodes.getD [], n.id ≠ c.id) →
          ∀ m, (m ∈ (fetchDataComplete (.json r) s).1.matches_
                ∨ m ∈ called (fetchDataComplete (.json r) s).1.matches_
                ∨ m ∈ playing (fetchDataComplete (.json r) s).1.matches_
                ∨ m ∈ (fetchDataComplete (.json r) s).1.upcomingMatches) →
            m.id ≠ c.id) := by
  obtain ⟨r2, ev, hr, hev, hres⟩ := (fetchSucceeded_iff _ _).mp hok
  injection hr with hr
  subst hr
  obtain ⟨tourney, images, act, comp, cd, h1, h2, h3, h4, h5, _⟩ := processEvent_ok ev s hres
  have hst : (fetchDataComplete (.json r) s).1
      = { s with meta := metaOf ev tourney images, matches_ := cd,
                 upcomingMatches := upcomingFiltered cd, timer := 30, loading := false } := by
    rw [fetchDataComplete_eq, tryBlock_json, hev]
    simp only [processEvent_success ev tourney images act comp cd h1 h2 h3 h4 h5 s]
  obtain ⟨hlen, hidx⟩ := cleanData_index _ _ cd h5
  rw [hst]
  refine ⟨ev, act, comp, hev, h3, h4, hlen, ?_, ?_⟩
  · intro k n hk
    obtain ⟨m, hm, hd⟩ := hidx k n hk
    obtain ⟨s1, s2, e1, e2, hp1, hp2, _, _, hstat, hmid⟩ := displayMatch_ok _ n m hd
    exact ⟨m, s1, s2, hm, hmid, hstat, e1, e2, hp1, hp2⟩
  · intro c _ hnone m hm
    have hmem : m ∈ cd := by
      rcases hm with h | h | h | h
      · exact h
      · exact (List.mem_filter.mp h).1
      · exact (List.mem_filter.mp h).1
      · exact (List.mem_filter.mp h).1
    obtain ⟨n, hn, hd⟩ := cleanData_mem _ _ cd h5 m hmem
    obtain ⟨_, hmid, _⟩ := displayMatch_station _ n m hd
    rw [hmid]
    exact hnone n hn

/-- Witness of C27: the Scenario A response publishes one display match, that
of the active set "11"; the completed set "10" is displayed nowhere. -/
theorem only_active_sets_displayed_witness :
    (fetchDataComplete (.json sampleResponse) staleDashboard).1.matches_ = [scenarioAMatch]
    ∧ ∃ eventData act comp, eventOf sampleResponse = some eventData
      ∧ eventData.activeSets = some act ∧ eventData.completedSets = some comp
      ∧ (fetchDataComplete (.json sampleResponse) staleDashboard).1.matches_.length
          = (act.nodes.getD []).length :=
  ⟨by decide,
   (only_active_sets_displayed staleDashboard sampleResponse (by decide)).elim
    (fun ev h => h.elim (fun act h2 => h2.elim (fun comp h3 =>
      ⟨ev, act, comp, h3.1, h3.2.1, h3.2.2.1, h3.2.2.2.1⟩)))⟩

/-! ## Theorems: the map editor -/

/-- C28, the code at the failing input.  On a new layout `addStation` gives the
identifiers "1", then "2", and it never changes the existing stations.  On the
layout whose only station was renamed "A", `parseInt` gives `NaN`, the first
call appends the identifier "NaN" (the identifiers "A", "NaN" are pairwise
distinct), and the second call appends "NaN" again: the appended identifier
equals an existing one. -/
theorem addStation_duplicate_id :
    stationIds (addStation emptyLayout) = ["1"]
    ∧ stationIds (addStation (addStation emptyLayout)) = ["1", "2"]
    ∧ (∀ config : MapConfig,
        (addStation config).stations.take config.stations.length = config.stations
        ∧ (addStation config).stations.length = config.stations.length + 1)
    ∧ parseInt "A" = none ∧ parseInt "NaN" = none
    ∧ stationIds (addStation renamedLayout) = ["A", "NaN"]
    ∧ (stationIds (addStation renamedLayout)).Nodup
    ∧ stationIds (addStation (addStation renamedLayout)) = ["A", "NaN", "NaN"]
    ∧ ¬ (stationIds (addStation (addStation renamedLayout))).Nodup := by
  refine ⟨by decide, by decide, fun config => ?_, by decide, by decide, by decide, by decide,
    by decide, by decide⟩
  unfold addStation
  simp

end Terminus
